import Mathlib

/-!
A verification development for the triangle pipeline of a CPU software
rasterizer (the `gpu_renderer` module).  The pipeline code is embedded
shallowly: `f32` arithmetic is idealized as exact rational arithmetic,
attachment grids become total functions, and the collaborator modules the
renderer core only calls through their interfaces (math primitives,
attachments, camera, shaders, the line rasterizer) are modelled from the
specification.
-/

namespace CR

/-- Modelled from the spec: the math module's 2D vector (the module is not
among the sources; only its interface is used by the renderer core). -/
@[ext]
structure Vec2 where
  x : ℚ
  y : ℚ
  deriving DecidableEq

/-- Modelled from the spec: the math module's 3D vector. -/
@[ext]
structure Vec3 where
  x : ℚ
  y : ℚ
  z : ℚ
  deriving DecidableEq

/-- Modelled from the spec: the math module's 4D homogeneous vector, also
used for RGBA colors. -/
@[ext]
structure Vec4 where
  x : ℚ
  y : ℚ
  z : ℚ
  w : ℚ
  deriving DecidableEq

instance : Add Vec2 := ⟨fun a b => ⟨a.x + b.x, a.y + b.y⟩⟩

instance : HMul Vec2 ℚ Vec2 := ⟨fun a s => ⟨a.x * s, a.y * s⟩⟩

instance : HDiv Vec2 ℚ Vec2 := ⟨fun a s => ⟨a.x / s, a.y / s⟩⟩

instance : Add Vec3 := ⟨fun a b => ⟨a.x + b.x, a.y + b.y, a.z + b.z⟩⟩

instance : Sub Vec3 := ⟨fun a b => ⟨a.x - b.x, a.y - b.y, a.z - b.z⟩⟩

instance : Neg Vec3 := ⟨fun a => ⟨-a.x, -a.y, -a.z⟩⟩

instance : HMul Vec3 ℚ Vec3 := ⟨fun a s => ⟨a.x * s, a.y * s, a.z * s⟩⟩

instance : HDiv Vec3 ℚ Vec3 := ⟨fun a s => ⟨a.x / s, a.y / s, a.z / s⟩⟩

instance : Add Vec4 := ⟨fun a b => ⟨a.x + b.x, a.y + b.y, a.z + b.z, a.w + b.w⟩⟩

instance : HMul Vec4 ℚ Vec4 := ⟨fun a s => ⟨a.x * s, a.y * s, a.z * s, a.w * s⟩⟩

instance : HDiv Vec4 ℚ Vec4 := ⟨fun a s => ⟨a.x / s, a.y / s, a.z / s, a.w / s⟩⟩

/-- Modelled from the spec: the math module's cross product on 3D vectors. -/
def Vec3.cross (a b : Vec3) : Vec3 :=
  ⟨a.y * b.z - a.z * b.y, a.z * b.x - a.x * b.z, a.x * b.y - a.y * b.x⟩

/-- Modelled from the spec: the math module's dot product on 3D vectors. -/
def Vec3.dot (a b : Vec3) : ℚ :=
  a.x * b.x + a.y * b.y + a.z * b.z

/-- Modelled from the spec: the math module's unit z axis. -/
def Vec3.z_axis : Vec3 := ⟨0, 0, 1⟩

/-- Modelled from the spec: dropping the w component of a homogeneous vector. -/
def Vec4.truncated_to_vec3 (v : Vec4) : Vec3 := ⟨v.x, v.y, v.z⟩

/-- Modelled from the spec: the math module's 4×4 matrix. -/
structure Mat4 where
  m00 : ℚ
  m01 : ℚ
  m02 : ℚ
  m03 : ℚ
  m10 : ℚ
  m11 : ℚ
  m12 : ℚ
  m13 : ℚ
  m20 : ℚ
  m21 : ℚ
  m22 : ℚ
  m23 : ℚ
  m30 : ℚ
  m31 : ℚ
  m32 : ℚ
  m33 : ℚ
  deriving DecidableEq

/-- Modelled from the spec: matrix-vector multiplication. -/
def Mat4.mulVec (m : Mat4) (v : Vec4) : Vec4 :=
  ⟨m.m00 * v.x + m.m01 * v.y + m.m02 * v.z + m.m03 * v.w,
   m.m10 * v.x + m.m11 * v.y + m.m12 * v.z + m.m13 * v.w,
   m.m20 * v.x + m.m21 * v.y + m.m22 * v.z + m.m23 * v.w,
   m.m30 * v.x + m.m31 * v.y + m.m32 * v.z + m.m33 * v.w⟩

/-- Modelled from the spec: matrix-matrix multiplication. -/
def Mat4.mulMat (a b : Mat4) : Mat4 :=
  ⟨a.m00 * b.m00 + a.m01 * b.m10 + a.m02 * b.m20 + a.m03 * b.m30,
   a.m00 * b.m01 + a.m01 * b.m11 + a.m02 * b.m21 + a.m03 * b.m31,
   a.m00 * b.m02 + a.m01 * b.m12 + a.m02 * b.m22 + a.m03 * b.m32,
   a.m00 * b.m03 + a.m01 * b.m13 + a.m02 * b.m23 + a.m03 * b.m33,
   a.m10 * b.m00 + a.m11 * b.m10 + a.m12 * b.m20 + a.m13 * b.m30,
   a.m10 * b.m01 + a.m11 * b.m11 + a.m12 * b.m21 + a.m13 * b.m31,
   a.m10 * b.m02 + a.m11 * b.m12 + a.m12 * b.m22 + a.m13 * b.m32,
   a.m10 * b.m03 + a.m11 * b.m13 + a.m12 * b.m23 + a.m13 * b.m33,
   a.m20 * b.m00 + a.m21 * b.m10 + a.m22 * b.m20 + a.m23 * b.m30,
   a.m20 * b.m01 + a.m21 * b.m11 + a.m22 * b.m21 + a.m23 * b.m31,
   a.m20 * b.m02 + a.m21 * b.m12 + a.m22 * b.m22 + a.m23 * b.m32,
   a.m20 * b.m03 + a.m21 * b.m13 + a.m22 * b.m23 + a.m23 * b.m33,
   a.m30 * b.m00 + a.m31 * b.m10 + a.m32 * b.m20 + a.m33 * b.m30,
   a.m30 * b.m01 + a.m31 * b.m11 + a.m32 * b.m21 + a.m33 * b.m31,
   a.m30 * b.m02 + a.m31 * b.m12 + a.m32 * b.m22 + a.m33 * b.m32,
   a.m30 * b.m03 + a.m31 * b.m13 + a.m32 * b.m23 + a.m33 * b.m33⟩

/-- The identity matrix. -/
def Mat4.id : Mat4 :=
  ⟨1, 0, 0, 0, 0, 1, 0, 0, 0, 0, 1, 0, 0, 0, 0, 1⟩

/-- The largest finite `f32` value, `f32::MAX` = (2 − 2⁻²³)·2¹²⁷ = 2¹²⁸ − 2¹⁰⁴,
exactly, written as a plain numeral. -/
def f32_max : ℚ := 340282346638528859811704183484516925440

/-- The smallest finite `f32` value, `f32::MIN` = −(2¹²⁸ − 2¹⁰⁴), exactly. -/
def f32_min : ℚ := -340282346638528859811704183484516925440

/-- Modelled from the spec: the math module's 2D barycentric helper.  The
weights solve `p = α·a + β·b + γ·c` with `α + β + γ = 1` (Cramer's rule);
per the spec the helper is valid iff all weights are nonnegative, and a
degenerate (zero-determinant) triangle is never valid. -/
structure Berycentric where
  alpha : ℚ
  beta : ℚ
  gamma : ℚ
  valid : Bool
  deriving DecidableEq

/-- Modelled from the spec: construction of the barycentric weights of point
`p` with respect to the triangle `pts`. -/
def Berycentric.new (p : Vec2) (pts : Fin 3 → Vec2) : Berycentric :=
  let a := pts 0
  let b := pts 1
  let c := pts 2
  let det := (b.x - a.x) * (c.y - a.y) - (c.x - a.x) * (b.y - a.y)
  if det = 0 then ⟨0, 0, 0, false⟩
  else
    let beta := ((p.x - a.x) * (c.y - a.y) - (c.x - a.x) * (p.y - a.y)) / det
    let gamma := ((b.x - a.x) * (p.y - a.y) - (p.x - a.x) * (b.y - a.y)) / det
    let alpha := 1 - beta - gamma
    ⟨alpha, beta, gamma, decide (0 ≤ alpha) && decide (0 ≤ beta) && decide (0 ≤ gamma)⟩

/-- The helper's validity flag. -/
def Berycentric.is_valid (b : Berycentric) : Bool := b.valid

/-- Modelled from the spec: the common length N of the four parallel
attribute arrays (the shader module fixing it is not among the sources). -/
def attrLen : Nat := 4

/-- Modelled from the spec: per-vertex attributes, four parallel fixed-size
arrays of scalar, 2-, 3- and 4-vector slots. -/
structure Attributes where
  float : Fin attrLen → ℚ
  vec2 : Fin attrLen → Vec2
  vec3 : Fin attrLen → Vec3
  vec4 : Fin attrLen → Vec4

/-- Modelled from the spec: unused slots carry zero (`Attributes::default`). -/
def Attributes.default : Attributes :=
  ⟨fun _ => 0, fun _ => ⟨0, 0⟩, fun _ => ⟨0, 0, 0⟩, fun _ => ⟨0, 0, 0, 0⟩⟩

instance : Inhabited Attributes := ⟨Attributes.default⟩

instance : DecidableEq Attributes := fun a b =>
  decidable_of_iff (a.float = b.float ∧ a.vec2 = b.vec2 ∧ a.vec3 = b.vec3 ∧ a.vec4 = b.vec4)
    (by cases a; cases b; simp)

/-- Modelled from the spec: a vertex bundles a homogeneous position and the
attribute arrays. -/
structure Vertex where
  position : Vec4
  attributes : Attributes
  deriving DecidableEq

instance : Inhabited Vertex := ⟨⟨⟨0, 0, 0, 0⟩, Attributes.default⟩⟩

/-- Modelled from the spec: the shader pair; `Uniforms` and `TextureStorage`
are opaque environments, taken as type parameters `U` and `T`. -/
structure Shader (U T : Type) where
  vertex_changing : Vertex → U → T → Vertex
  pixel_shading : Attributes → U → T → Vec4

/-- `Shader::call_vertex_changing` forwards to the vertex function. -/
def Shader.call_vertex_changing {U T : Type} (s : Shader U T) (v : Vertex) (u : U) (t : T) :
    Vertex :=
  s.vertex_changing v u t

/-- `Shader::call_pixel_shading` forwards to the pixel function. -/
def Shader.call_pixel_shading {U T : Type} (s : Shader U T) (a : Attributes) (u : U) (t : T) :
    Vec4 :=
  s.pixel_shading a u t

/-- Modelled from the spec: the color attachment, a W×H grid of colors with
clear/set/width/height. -/
structure ColorAttachment where
  width : Nat
  height : Nat
  data : Nat → Nat → Vec4

/-- Modelled from the spec: writing one pixel of the color attachment. -/
def ColorAttachment.set (c : ColorAttachment) (x y : Nat) (v : Vec4) : ColorAttachment :=
  { c with data := fun i j => if i = x ∧ j = y then v else c.data i j }

/-- Modelled from the spec: resetting every pixel of the color attachment. -/
def ColorAttachment.clear (c : ColorAttachment) (v : Vec4) : ColorAttachment :=
  { c with data := fun _ _ => v }

/-- Modelled from the spec: the depth attachment, a W×H grid of depths with
clear/get/set. -/
structure DepthAttachment where
  width : Nat
  height : Nat
  data : Nat → Nat → ℚ

/-- Modelled from the spec: reading one texel of the depth attachment. -/
def DepthAttachment.get (d : DepthAttachment) (x y : Nat) : ℚ := d.data x y

/-- Modelled from the spec: writing one texel of the depth attachment. -/
def DepthAttachment.set (d : DepthAttachment) (x y : Nat) (z : ℚ) : DepthAttachment :=
  { d with data := fun i j => if i = x ∧ j = y then z else d.data i j }

/-- Modelled from the spec: resetting every texel of the depth attachment. -/
def DepthAttachment.clear (d : DepthAttachment) (z : ℚ) : DepthAttachment :=
  { d with data := fun _ _ => z }

/-- Modelled from the spec: the viewport descriptor, in pixels. -/
structure Viewport where
  x : Nat
  y : Nat
  w : Nat
  h : Nat
  deriving DecidableEq

/-- Modelled from the spec: the camera frustum exposes a projection matrix
and the near-plane value. -/
structure Frustum where
  mat : Mat4
  near : ℚ
  deriving DecidableEq

/-- Modelled from the spec: the camera exposes a view matrix and a frustum. -/
structure Camera where
  view_mat : Mat4
  frustum : Frustum
  deriving DecidableEq

/-- `Camera::get_frustum`. -/
def Camera.get_frustum (c : Camera) : Frustum := c.frustum

/-- Modelled from the spec: the front-face winding policy. -/
inductive FrontFace where
  | ccw
  | cw
  deriving DecidableEq

/-- Modelled from the spec: the face-cull policy. -/
inductive FaceCull where
  | none
  | front
  | back
  deriving DecidableEq

/-- Modelled from the spec: `should_cull` computes the view-space geometric
normal, dots it with the view-direction reference, combines the sign with the
winding policy and discards front (resp. back) facing triangles when the cull
policy says so; a degenerate triangle counts as neither front nor back. -/
def should_cull (pts : Fin 3 → Vec3) (view_dir : Vec3) (ff : FrontFace) (cull : FaceCull) :
    Bool :=
  let normal := Vec3.cross (pts 1 - pts 0) (pts 2 - pts 0)
  let d := Vec3.dot normal view_dir
  let front := match ff with
    | FrontFace.ccw => decide (0 < d)
    | FrontFace.cw => decide (d < 0)
  let back := match ff with
    | FrontFace.ccw => decide (d < 0)
    | FrontFace.cw => decide (0 < d)
  match cull with
  | FaceCull.none => false
  | FaceCull.front => front
  | FaceCull.back => back

/-- Modelled from the spec: the line primitive handed to the line rasterizer. -/
structure Line where
  a : Vertex
  b : Vertex

/-- `Line::new`. -/
def Line.new (v1 v2 : Vertex) : Line := ⟨v1, v2⟩

/-- Modelled from the spec: `rasterize_line` is an external collaborator with
unspecified pixel-level behavior; the model takes it as a parameter.  Its
arguments mirror the call site: the line, the pixel-shading function, the
uniforms, the texture storage and both attachments. -/
def LineRast (U T : Type) : Type :=
  Line → (Attributes → U → T → Vec4) → U → T → ColorAttachment → DepthAttachment →
    ColorAttachment × DepthAttachment

/-- `ceil` of an `f32`, kept as a rational as the source keeps it as `f32`. -/
def ratCeil (q : ℚ) : ℚ := (⌈q⌉ : ℚ)

/-- `floor` of an `f32`, kept as a rational. -/
def ratFloor (q : ℚ) : ℚ := (⌊q⌋ : ℚ)

/-- `u32::MAX`. -/
def u32Max : Nat := 4294967295

/-- Rust's saturating `as u32` cast of a float: negative values go to 0,
values beyond `u32::MAX` saturate, and the fractional part is truncated. -/
def ratToU32 (q : ℚ) : Nat :=
  if q < 0 then 0 else min (Int.toNat ⌊q⌋) u32Max

/-- Rust's inclusive range `a..=b` over `u32`, as the list of the visited
values (empty when `b < a`). -/
def natRangeIncl (a b : Nat) : List Nat := List.range' a (b + 1 - a)

/-- The vertex-shading stage: `shader.call_vertex_changing` on one vertex. -/
def vertexShaderStage {U T : Type} (sh : Shader U T) (u : U) (ts : T) (v : Vertex) : Vertex :=
  sh.call_vertex_changing v u ts

/-- The Model-View stage: `v.position ← (view · model) · v.position`. -/
def modelViewStage (cam : Camera) (model : Mat4) (v : Vertex) : Vertex :=
  { v with position := (cam.view_mat.mulMat model).mulVec v.position }

/-- The projection stage: `v.position ← projection · v.position`. -/
def projStage (cam : Camera) (v : Vertex) : Vertex :=
  { v with position := cam.get_frustum.mat.mulVec v.position }

/-- The depth-substitution step: `v.position.z ← −v.position.w`. -/
def setTrueZ (v : Vertex) : Vertex :=
  { v with position := { v.position with z := -v.position.w } }

/-- The perspective divide: only x and y are divided by w. -/
def perspectiveDivide (v : Vertex) : Vertex :=
  { v with position :=
      { v.position with
        x := v.position.x / v.position.w,
        y := v.position.y / v.position.w } }

/-- The viewport transform (y-flipped to screen space). -/
def viewportTransform (vp : Viewport) (v : Vertex) : Vertex :=
  { v with position :=
      { v.position with
        x := (v.position.x + 1) * (1 / 2) * ((vp.w : ℚ) - 1) + (vp.x : ℚ),
        y := (vp.h : ℚ) - (v.position.y + 1) * (1 / 2) * ((vp.h : ℚ) - 1) + (vp.y : ℚ) } }

/-- The three vertices of triangle after vertex shading and Model-View; the
cull test runs on these. -/
def mvVerts {U T : Type} (sh : Shader U T) (u : U) (ts : T) (cam : Camera) (model : Mat4)
    (v0 v1 v2 : Vertex) : Fin 3 → Vertex :=
  fun i => modelViewStage cam model (vertexShaderStage sh u ts (![v0, v1, v2] i))

/-- One vertex after projection, depth substitution, perspective divide and
viewport transform, in the source's order. -/
def postViewport (cam : Camera) (vp : Viewport) (v : Vertex) : Vertex :=
  viewportTransform vp (perspectiveDivide (setTrueZ (projStage cam v)))

/-- The three post-viewport vertices of a triangle. -/
def pipelineVerts {U T : Type} (sh : Shader U T) (u : U) (ts : T) (cam : Camera) (model : Mat4)
    (vp : Viewport) (v0 v1 v2 : Vertex) : Fin 3 → Vertex :=
  fun i => postViewport cam vp (mvVerts sh u ts cam model v0 v1 v2 i)

/-- The source's fold computing the minimum of one screen coordinate over the
three vertices, starting from `f32::MAX`. -/
def foldMin (f : Vertex → ℚ) (vs : Fin 3 → Vertex) : ℚ :=
  let m0 := f32_max
  let m1 := if f (vs 0) < m0 then f (vs 0) else m0
  let m2 := if f (vs 1) < m1 then f (vs 1) else m1
  if f (vs 2) < m2 then f (vs 2) else m2

/-- The source's fold computing the maximum of one screen coordinate over the
three vertices, starting from `f32::MIN`. -/
def foldMax (f : Vertex → ℚ) (vs : Fin 3 → Vertex) : ℚ :=
  let m0 := f32_min
  let m1 := if m0 < f (vs 0) then f (vs 0) else m0
  let m2 := if m1 < f (vs 1) then f (vs 1) else m1
  if m2 < f (vs 2) then f (vs 2) else m2

/-- `aabb_min_x`: ceil of the x minimum, clamped to ≥ 0. -/
def aabbMinX (vs : Fin 3 → Vertex) : ℚ :=
  max (ratCeil (foldMin (fun v => v.position.x) vs)) 0

/-- `aabb_min_y`: ceil of the y minimum, clamped to ≥ 0. -/
def aabbMinY (vs : Fin 3 → Vertex) : ℚ :=
  max (ratCeil (foldMin (fun v => v.position.y) vs)) 0

/-- `aabb_max_x`: floor of the x maximum, clamped to ≤ width − 1. -/
def aabbMaxX (vs : Fin 3 → Vertex) (w : Nat) : ℚ :=
  min (ratFloor (foldMax (fun v => v.position.x) vs)) ((w : ℚ) - 1)

/-- `aabb_max_y`: floor of the y maximum, clamped to ≤ height − 1. -/
def aabbMaxY (vs : Fin 3 → Vertex) (h : Nat) : ℚ :=
  min (ratFloor (foldMax (fun v => v.position.y) vs)) ((h : ℚ) - 1)

/-- The screen-space 2D positions of the three vertices. -/
def screenPts (vs : Fin 3 → Vertex) : Fin 3 → Vec2 :=
  fun i => ⟨(vs i).position.x, (vs i).position.y⟩

/-- `inv_z = α/z₀ + β/z₁ + γ/z₂`, the perspective-correct reciprocal depth. -/
def invZ (vs : Fin 3 → Vertex) (ber : Berycentric) : ℚ :=
  ber.alpha / (vs 0).position.z + ber.beta / (vs 1).position.z +
    ber.gamma / (vs 2).position.z

/-- The perspective-correct attribute interpolation of the source, slot-wise
over the four parallel arrays. -/
def get_corrected_attribute (z : ℚ) (vertices : Fin 3 → Vertex) (ber : Berycentric) :
    Attributes :=
  { float := fun i =>
      ((vertices 0).attributes.float i * ber.alpha / (vertices 0).position.z +
       (vertices 1).attributes.float i * ber.beta / (vertices 1).position.z +
       (vertices 2).attributes.float i * ber.gamma / (vertices 2).position.z) * z,
    vec2 := fun i =>
      ((vertices 0).attributes.vec2 i * ber.alpha / (vertices 0).position.z +
       (vertices 1).attributes.vec2 i * ber.beta / (vertices 1).position.z +
       (vertices 2).attributes.vec2 i * ber.gamma / (vertices 2).position.z) * z,
    vec3 := fun i =>
      ((vertices 0).attributes.vec3 i * ber.alpha / (vertices 0).position.z +
       (vertices 1).attributes.vec3 i * ber.beta / (vertices 1).position.z +
       (vertices 2).attributes.vec3 i * ber.gamma / (vertices 2).position.z) * z,
    vec4 := fun i =>
      ((vertices 0).attributes.vec4 i * ber.alpha / (vertices 0).position.z +
       (vertices 1).attributes.vec4 i * ber.beta / (vertices 1).position.z +
       (vertices 2).attributes.vec4 i * ber.gamma / (vertices 2).position.z) * z }

/-- One fill-path write: the pixel coordinates together with the color and
depth values stored there. -/
structure Fragment where
  x : Nat
  y : Nat
  color : Vec4
  z : ℚ
  deriving DecidableEq

instance : Inhabited Fragment := ⟨⟨0, 0, ⟨0, 0, 0, 0⟩, 0⟩⟩

/-- The state a draw call threads: both attachments plus the ordered list of
fill-path writes performed so far. -/
structure DrawState where
  color : ColorAttachment
  depth : DepthAttachment
  trace : List Fragment

/-- The barycentric weights of the pixel center (x, y) with respect to the
screen-space triangle. -/
def pixelBer (vs : Fin 3 → Vertex) (x y : Nat) : Berycentric :=
  Berycentric.new ⟨(x : ℚ), (y : ℚ)⟩ (screenPts vs)

/-- `z = 1 / inv_z`, the perspective-correct reconstructed depth of a pixel. -/
def reconstructedZ (vs : Fin 3 → Vertex) (x y : Nat) : ℚ :=
  1 / invZ vs (pixelBer vs x y)

/-- The color the pixel shader produces for a fragment, from the
perspective-corrected attributes. -/
def fragColor {U T : Type} (sh : Shader U T) (u : U) (ts : T) (vs : Fin 3 → Vertex)
    (x y : Nat) : Vec4 :=
  sh.call_pixel_shading
    (get_corrected_attribute (reconstructedZ vs x y) vs (pixelBer vs x y)) u ts

/-- The body of the rasterization inner loop at one pixel: barycentric test,
perspective-correct depth reconstruction, depth test, shading and write. -/
def pixelStep {U T : Type} (sh : Shader U T) (u : U) (ts : T) (near : ℚ)
    (vs : Fin 3 → Vertex) (x y : Nat) (s : DrawState) : DrawState :=
  if (pixelBer vs x y).is_valid then
    if reconstructedZ vs x y < near ∧ s.depth.get x y ≤ reconstructedZ vs x y then
      ⟨s.color.set x y (fragColor sh u ts vs x y),
       s.depth.set x y (reconstructedZ vs x y),
       s.trace ++ [⟨x, y, fragColor sh u ts vs x y, reconstructedZ vs x y⟩]⟩
    else s
  else s

/-- The AABB walk: x is the outer loop, y the inner loop. -/
def fillLoop {U T : Type} (sh : Shader U T) (u : U) (ts : T) (near : ℚ)
    (vs : Fin 3 → Vertex) (xmin xmax ymin ymax : Nat) (s : DrawState) : DrawState :=
  (natRangeIncl xmin xmax).foldl
    (fun st x =>
      (natRangeIncl ymin ymax).foldl (fun st2 y => pixelStep sh u ts near vs x y st2) st)
    s

/-- An endpoint of a wireframe edge: the post-viewport vertex with its z
replaced by `1/z`. -/
def recipZ (v : Vertex) : Vertex :=
  { v with position := { v.position with z := 1 / v.position.z } }

/-- The wireframe branch: for each edge (i, (i+1) mod 3), delegate the line
with reciprocal-depth endpoints to the line rasterizer. -/
def drawEdges {U T : Type} (lr : LineRast U T) (sh : Shader U T) (u : U) (ts : T)
    (vs : Fin 3 → Vertex) (s : DrawState) : DrawState :=
  (List.finRange 3).foldl
    (fun st i =>
      let v1 := recipZ (vs i)
      let v2 := recipZ (vs (i + 1))
      let cd := lr (Line.new v1 v2) sh.pixel_shading u ts st.color st.depth
      ⟨cd.1, cd.2, st.trace⟩)
    s

/-- One triangle of `draw_triangle`: vertex shading, Model-View, cull test,
projection, depth substitution, perspective divide, viewport transform, AABB,
then either the wireframe branch or the fill loop. -/
def processTriangle {U T : Type} (lr : LineRast U T) (sh : Shader U T) (u : U) (ts : T)
    (cam : Camera) (model : Mat4) (vp : Viewport) (ff : FrontFace) (cull : FaceCull)
    (fw : Bool) (v0 v1 v2 : Vertex) (s : DrawState) : DrawState :=
  if should_cull
      (fun i => ((mvVerts sh u ts cam model v0 v1 v2) i).position.truncated_to_vec3)
      (-Vec3.z_axis) ff cull then s
  else if fw then
    drawEdges lr sh u ts (pipelineVerts sh u ts cam model vp v0 v1 v2) s
  else
    fillLoop sh u ts cam.get_frustum.near (pipelineVerts sh u ts cam model vp v0 v1 v2)
      (ratToU32 (aabbMinX (pipelineVerts sh u ts cam model vp v0 v1 v2)))
      (ratToU32 (aabbMaxX (pipelineVerts sh u ts cam model vp v0 v1 v2) s.color.width))
      (ratToU32 (aabbMinY (pipelineVerts sh u ts cam model vp v0 v1 v2)))
      (ratToU32 (aabbMaxY (pipelineVerts sh u ts cam model vp v0 v1 v2) s.color.height)) s

/-- The renderer's state: both attachments and the pipeline configuration. -/
structure Renderer (U T : Type) where
  color_attachment : ColorAttachment
  depth_attachment : DepthAttachment
  camera : Camera
  viewport : Viewport
  shader : Shader U T
  uniforms : U
  front_face : FrontFace
  cull : FaceCull
  enable_framework : Bool

/-- The whole of `draw_triangle` as a `DrawState` transformer: the vertex
array is cut into ⌊len/3⌋ consecutive triples, processed in order. -/
def draw_full {U T : Type} (lr : LineRast U T) (r : Renderer U T) (model : Mat4)
    (vertices : List Vertex) (ts : T) : DrawState :=
  (List.range (vertices.length / 3)).foldl
    (fun s i =>
      processTriangle lr r.shader r.uniforms ts r.camera model r.viewport r.front_face
        r.cull r.enable_framework (vertices.getD (i * 3) default)
        (vertices.getD (1 + i * 3) default) (vertices.getD (2 + i * 3) default) s)
    ⟨r.color_attachment, r.depth_attachment, []⟩

/-- `draw_triangle`: the renderer with both attachments updated in place. -/
def draw_triangle {U T : Type} (lr : LineRast U T) (r : Renderer U T) (model : Mat4)
    (vertices : List Vertex) (ts : T) : Renderer U T :=
  let s := draw_full lr r model vertices ts
  { r with color_attachment := s.color, depth_attachment := s.depth }

/-- `clear`: reset the color attachment. -/
def Renderer.clear {U T : Type} (r : Renderer U T) (color : Vec4) : Renderer U T :=
  { r with color_attachment := r.color_attachment.clear color }

/-- `clear_depth`: reset the depth attachment to `f32::MIN`. -/
def clear_depth {U T : Type} (r : Renderer U T) : Renderer U T :=
  { r with depth_attachment := r.depth_attachment.clear f32_min }

/-- `get_rendered_image`, modelled from the spec as the grid of colors of the
color attachment (the byte packing of the image module is not among the
sources). -/
def get_rendered_image {U T : Type} (r : Renderer U T) : Nat → Nat → Vec4 :=
  r.color_attachment.data

/-! ### Concrete fixtures for closed instances -/

/-- A line rasterizer that writes nothing, for concrete instances. -/
def idLR : LineRast Unit Unit := fun _ _ _ _ c d => (c, d)

/-- An identity vertex shader paired with a constant red pixel shader. -/
def constShader : Shader Unit Unit := ⟨fun v _ _ => v, fun _ _ _ => ⟨1, 0, 0, 1⟩⟩

/-- A camera with identity view and projection matrices and near plane 0. -/
def idCamera : Camera := ⟨Mat4.id, ⟨Mat4.id, 0⟩⟩

/-- A w×h renderer over trivial uniforms and textures, attachments cleared,
viewport covering the full canvas, no culling, fill mode. -/
def mkRenderer (w h : Nat) : Renderer Unit Unit :=
  { color_attachment := ⟨w, h, fun _ _ => ⟨0, 0, 0, 0⟩⟩,
    depth_attachment := ⟨w, h, fun _ _ => f32_min⟩,
    camera := idCamera,
    viewport := ⟨0, 0, w, h⟩,
    shader := constShader,
    uniforms := (),
    front_face := FrontFace.ccw,
    cull := FaceCull.none,
    enable_framework := false }

/-- A vertex at the given homogeneous position with zero attributes. -/
def mkV (x y z w : ℚ) : Vertex := ⟨⟨x, y, z, w⟩, Attributes.default⟩

/-! ### Generic fold lemmas -/

/-- Two folds agree when the step functions agree on the list's elements. -/
lemma foldl_congr_mem {σ α : Type} {f g : σ → α → σ} :
    ∀ (l : List α) (s : σ), (∀ s' a, a ∈ l → f s' a = g s' a) →
      l.foldl f s = l.foldl g s
  | [], _, _ => rfl
  | a :: t, s, h => by
      simp only [List.foldl_cons]
      rw [h s a (List.mem_cons_self a t)]
      exact foldl_congr_mem t _ fun s' b hb => h s' b (List.mem_cons_of_mem a hb)

/-- A predicate preserved by every step of a fold is preserved by the fold. -/
lemma foldl_preserve {σ α : Type} {P : σ → Prop} {f : σ → α → σ} :
    ∀ (l : List α) (s : σ), (∀ s' a, a ∈ l → P s' → P (f s' a)) → P s →
      P (l.foldl f s)
  | [], _, _, hs => hs
  | a :: t, s, h, hs =>
      foldl_preserve t (f s a) (fun s' b hb => h s' b (List.mem_cons_of_mem a hb))
        (h s a (List.mem_cons_self a t) hs)

/-- A reflexive transitive relation that relates every state to its successor
relates the initial state of a fold to its result. -/
lemma foldl_rel {σ α : Type} {R : σ → σ → Prop} {f : σ → α → σ}
    (hrefl : ∀ s, R s s) (htrans : ∀ a b c, R a b → R b c → R a c)
    (hstep : ∀ s a, R s (f s a)) : ∀ (l : List α) (s : σ), R s (l.foldl f s)
  | [], s => hrefl s
  | a :: t, s => htrans _ _ _ (hstep s a) (foldl_rel hrefl htrans hstep t (f s a))

/-- `getD` on a prefix agrees with `getD` on the list below the cut. -/
lemma getD_take {α : Type} [Inhabited α] (l : List α) (n i : Nat) (h : i < n) :
    (l.take n).getD i default = l.getD i default := by
  by_cases hi : i < l.length
  · rw [List.getD_eq_getElem l default (by exact hi),
      List.getD_eq_getElem (l.take n) default (by simp [List.length_take]; omega)]
    simp [List.getElem_take]
  · rw [List.getD_eq_default l default (by omega),
      List.getD_eq_default (l.take n) default (by simp [List.length_take]; omega)]

/-! ### Claim theorems -/

/-- C2: for every vertex, after the projection transform the z component is
replaced by the negation of the w component and the perspective divide
touches only x and y; hence the position entering the viewport transform
carries `−w` (the view-space depth for a standard perspective matrix whose
fourth row is (0, 0, −1, 0)) in z, and w itself is unchanged. -/
theorem C2_depth_substitution (cam : Camera) (vp : Viewport) (v : Vertex) :
    (perspectiveDivide (setTrueZ (projStage cam v))).position =
      ⟨(projStage cam v).position.x / (projStage cam v).position.w,
       (projStage cam v).position.y / (projStage cam v).position.w,
       -(projStage cam v).position.w,
       (projStage cam v).position.w⟩
    ∧ (postViewport cam vp v).position.z = -(projStage cam v).position.w
    ∧ (postViewport cam vp v).position.w = (projStage cam v).position.w
    ∧ (cam.frustum.mat.m30 = 0 → cam.frustum.mat.m31 = 0 → cam.frustum.mat.m32 = -1 →
        cam.frustum.mat.m33 = 0 →
        (postViewport cam vp v).position.z = v.position.z) := by
  refine ⟨rfl, rfl, rfl, fun h0 h1 h2 h3 => ?_⟩
  simp [postViewport, viewportTransform, perspectiveDivide, setTrueZ, projStage,
    Camera.get_frustum, Mat4.mulVec, h0, h1, h2, h3]

/-- A projection matrix whose fourth row is (0, 0, −1, 0), as in a standard
perspective projection. -/
def stdProj : Mat4 := ⟨1, 0, 0, 0, 0, 1, 0, 0, 0, 0, 1, 0, 0, 0, -1, 0⟩

/-- Witness for C2 at a concrete camera whose projection has fourth row
(0, 0, −1, 0). -/
theorem C2_witness :
    (stdProj.m30 = 0 ∧ stdProj.m31 = 0 ∧ stdProj.m32 = -1 ∧ stdProj.m33 = 0)
    ∧ (postViewport ⟨Mat4.id, ⟨stdProj, 0⟩⟩ ⟨0, 0, 3, 3⟩ (mkV 1 2 3 1)).position.z
        = (mkV 1 2 3 1).position.z :=
  ⟨⟨rfl, rfl, rfl, rfl⟩,
   (C2_depth_substitution ⟨Mat4.id, ⟨stdProj, 0⟩⟩ ⟨0, 0, 3, 3⟩ (mkV 1 2 3 1)).2.2.2
     rfl rfl rfl rfl⟩

/-- C8: `clear` resets every pixel of the color attachment and leaves depth
alone; `clear_depth` resets every depth texel to `f32::MIN` and leaves color
alone; after `clear c` with no draws the rendered image is `c` everywhere. -/
theorem C8_clear_semantics {U T : Type} (r : Renderer U T) (c : Vec4) (x y : Nat) :
    (r.clear c).color_attachment.data x y = c
    ∧ (r.clear c).depth_attachment = r.depth_attachment
    ∧ (clear_depth r).depth_attachment.data x y = f32_min
    ∧ (clear_depth r).color_attachment = r.color_attachment
    ∧ get_rendered_image (r.clear c) x y = c :=
  ⟨rfl, rfl, rfl, rfl, rfl⟩

/-- C9: a draw call mutates only the two attachments; camera, viewport,
shader, uniforms, winding, cull policy and the wireframe toggle are
unchanged (the vertex array and texture storage are taken by shared
reference in the source and are untouched by construction). -/
theorem C9_frame_condition {U T : Type} (lr : LineRast U T) (r : Renderer U T)
    (model : Mat4) (vs : List Vertex) (ts : T) :
    (draw_triangle lr r model vs ts).camera = r.camera
    ∧ (draw_triangle lr r model vs ts).viewport = r.viewport
    ∧ (draw_triangle lr r model vs ts).shader = r.shader
    ∧ (draw_triangle lr r model vs ts).uniforms = r.uniforms
    ∧ (draw_triangle lr r model vs ts).front_face = r.front_face
    ∧ (draw_triangle lr r model vs ts).cull = r.cull
    ∧ (draw_triangle lr r model vs ts).enable_framework = r.enable_framework :=
  ⟨rfl, rfl, rfl, rfl, rfl, rfl, rfl⟩

/-- C4: a draw call processes exactly ⌊len/3⌋ consecutive triples — the
trailing `len mod 3` vertices have no effect at all — and a call with fewer
than 3 vertices leaves the renderer unchanged. -/
theorem C4_triangle_batching {U T : Type} (lr : LineRast U T) (r : Renderer U T)
    (model : Mat4) (vs : List Vertex) (ts : T) :
    draw_triangle lr r model vs ts
        = draw_triangle lr r model (vs.take (3 * (vs.length / 3))) ts
    ∧ (vs.length < 3 → draw_triangle lr r model vs ts = r) := by
  constructor
  · have hle : 3 * (vs.length / 3) ≤ vs.length := by
      calc 3 * (vs.length / 3) = vs.length / 3 * 3 := Nat.mul_comm _ _
        _ ≤ vs.length := Nat.div_mul_le_self _ _
    have hlen : (vs.take (3 * (vs.length / 3))).length = 3 * (vs.length / 3) := by
      simp [List.length_take]; omega
    have hdiv : (vs.take (3 * (vs.length / 3))).length / 3 = vs.length / 3 := by
      rw [hlen, Nat.mul_div_cancel_left _ (by norm_num)]
    unfold draw_triangle draw_full
    rw [hdiv]
    rw [foldl_congr_mem (List.range (vs.length / 3)) _ ?_]
    intro s i hi
    have hi3 : i < vs.length / 3 := List.mem_range.mp hi
    rw [getD_take vs (3 * (vs.length / 3)) (i * 3) (by omega),
      getD_take vs (3 * (vs.length / 3)) (1 + i * 3) (by omega),
      getD_take vs (3 * (vs.length / 3)) (2 + i * 3) (by omega)]
  · intro h
    have h0 : vs.length / 3 = 0 := Nat.div_eq_of_lt h
    simp [draw_triangle, draw_full, h0]

/-! ### Attachment and pixel-step lemmas -/

@[simp]
lemma DepthAttachment.get_set_same (d : DepthAttachment) (x y : Nat) (z : ℚ) :
    (d.set x y z).get x y = z := by
  simp [DepthAttachment.set, DepthAttachment.get]

lemma DepthAttachment.get_set_other (d : DepthAttachment) (x y a b : Nat) (z : ℚ)
    (h : ¬(a = x ∧ b = y)) : (d.set x y z).get a b = d.get a b := by
  simp [DepthAttachment.set, DepthAttachment.get, h]

lemma pixelStep_invalid {U T : Type} (sh : Shader U T) (u : U) (ts : T) (near : ℚ)
    (vs : Fin 3 → Vertex) (x y : Nat) (s : DrawState)
    (h : (pixelBer vs x y).is_valid = false) : pixelStep sh u ts near vs x y s = s := by
  simp [pixelStep, h]

lemma pixelStep_nowrite {U T : Type} (sh : Shader U T) (u : U) (ts : T) (near : ℚ)
    (vs : Fin 3 → Vertex) (x y : Nat) (s : DrawState)
    (h : ¬(reconstructedZ vs x y < near ∧ s.depth.get x y ≤ reconstructedZ vs x y)) :
    pixelStep sh u ts near vs x y s = s := by
  unfold pixelStep
  by_cases hv : (pixelBer vs x y).is_valid <;> simp [hv, h]

lemma pixelStep_write {U T : Type} (sh : Shader U T) (u : U) (ts : T) (near : ℚ)
    (vs : Fin 3 → Vertex) (x y : Nat) (s : DrawState)
    (hv : (pixelBer vs x y).is_valid = true)
    (h : reconstructedZ vs x y < near ∧ s.depth.get x y ≤ reconstructedZ vs x y) :
    pixelStep sh u ts near vs x y s =
      ⟨s.color.set x y (fragColor sh u ts vs x y),
       s.depth.set x y (reconstructedZ vs x y),
       s.trace ++ [⟨x, y, fragColor sh u ts vs x y, reconstructedZ vs x y⟩]⟩ := by
  simp [pixelStep, hv, h]

/-- Every way `pixelStep` can act: leave the state alone, or perform the
coupled color/depth/trace write of one passing fragment. -/
lemma pixelStep_cases {U T : Type} (sh : Shader U T) (u : U) (ts : T) (near : ℚ)
    (vs : Fin 3 → Vertex) (x y : Nat) (s : DrawState) :
    pixelStep sh u ts near vs x y s = s ∨
      (pixelStep sh u ts near vs x y s =
          ⟨s.color.set x y (fragColor sh u ts vs x y),
           s.depth.set x y (reconstructedZ vs x y),
           s.trace ++ [⟨x, y, fragColor sh u ts vs x y, reconstructedZ vs x y⟩]⟩
        ∧ reconstructedZ vs x y < near ∧ s.depth.get x y ≤ reconstructedZ vs x y) := by
  by_cases hv : (pixelBer vs x y).is_valid
  · by_cases h : reconstructedZ vs x y < near ∧ s.depth.get x y ≤ reconstructedZ vs x y
    · exact Or.inr ⟨pixelStep_write sh u ts near vs x y s hv h, h⟩
    · exact Or.inl (pixelStep_nowrite sh u ts near vs x y s h)
  · exact Or.inl (pixelStep_invalid sh u ts near vs x y s (by simpa using hv))

/-! ### Draw-level invariants -/

/-- Bookkeeping invariant: each depth texel equals the running maximum of
`f32::MIN` and the depths of the fragments written there so far. -/
def DepthIsTraceMax (s : DrawState) : Prop :=
  ∀ a b : Nat,
    s.depth.get a b =
      (s.trace.filter fun f => f.x == a && f.y == b).foldl (fun m f => max m f.z) f32_min

lemma pixelStep_depthTraceMax {U T : Type} (sh : Shader U T) (u : U) (ts : T) (near : ℚ)
    (vs : Fin 3 → Vertex) (x y : Nat) (s : DrawState) (hs : DepthIsTraceMax s) :
    DepthIsTraceMax (pixelStep sh u ts near vs x y s) := by
  rcases pixelStep_cases sh u ts near vs x y s with h | ⟨h, _, hle⟩
  · rw [h]; exact hs
  · rw [h]
    intro a b
    by_cases hab : a = x ∧ b = y
    · obtain ⟨hax, hby⟩ := hab
      subst hax
      subst hby
      rw [DepthAttachment.get_set_same, List.filter_append, List.foldl_append]
      have hfrag :
          List.filter (fun f => f.x == a && f.y == b)
            ([⟨a, b, fragColor sh u ts vs a b, reconstructedZ vs a b⟩] : List Fragment) =
          [⟨a, b, fragColor sh u ts vs a b, reconstructedZ vs a b⟩] := by
        simp
      rw [hfrag, List.foldl_cons, List.foldl_nil, ← hs a b]
      exact (max_eq_right hle).symm
    · rw [DepthAttachment.get_set_other _ _ _ _ _ _ hab, List.filter_append]
      have hfrag :
          List.filter (fun f => f.x == a && f.y == b)
            ([⟨x, y, fragColor sh u ts vs x y, reconstructedZ vs x y⟩] : List Fragment) =
          [] := by
        by_cases h1 : x = a
        · by_cases h2 : y = b
          · exact absurd ⟨h1.symm, h2.symm⟩ hab
          · simp [h2]
        · simp [h1]
      rw [hfrag, List.append_nil]
      exact hs a b

lemma fillLoop_preserve {U T : Type} (sh : Shader U T) (u : U) (ts : T) (near : ℚ)
    (vs : Fin 3 → Vertex) (xmin xmax ymin ymax : Nat) {P : DrawState → Prop}
    (hstep : ∀ s x y, P s → P (pixelStep sh u ts near vs x y s)) (s : DrawState)
    (hs : P s) : P (fillLoop sh u ts near vs xmin xmax ymin ymax s) := by
  unfold fillLoop
  refine foldl_preserve _ _ (fun s' x _ hP => ?_) hs
  exact foldl_preserve _ _ (fun s'' y _ hP' => hstep s'' x y hP') hP

lemma processTriangle_preserve {U T : Type} (lr : LineRast U T) (sh : Shader U T) (u : U)
    (ts : T) (cam : Camera) (model : Mat4) (vp : Viewport) (ff : FrontFace)
    (cull : FaceCull) (v0 v1 v2 : Vertex) {P : DrawState → Prop}
    (hstep : ∀ vsP s x y, P s → P (pixelStep sh u ts cam.get_frustum.near vsP x y s))
    (s : DrawState) (hs : P s) :
    P (processTriangle lr sh u ts cam model vp ff cull false v0 v1 v2 s) := by
  unfold processTriangle
  split
  · exact hs
  · split
    · next h => exact absurd h (by simp)
    · exact fillLoop_preserve _ _ _ _ _ _ _ _ _ (fun s' x y hP => hstep _ s' x y hP) s hs

lemma draw_full_preserve {U T : Type} (lr : LineRast U T) (r : Renderer U T) (model : Mat4)
    (vs : List Vertex) (ts : T) {P : DrawState → Prop}
    (hfw : r.enable_framework = false)
    (hstep : ∀ vsP s x y,
      P s → P (pixelStep r.shader r.uniforms ts r.camera.get_frustum.near vsP x y s))
    (hinit : P ⟨r.color_attachment, r.depth_attachment, []⟩) :
    P (draw_full lr r model vs ts) := by
  unfold draw_full
  refine foldl_preserve _ _ (fun s i _ hP => ?_) hinit
  rw [hfw]
  exact processTriangle_preserve lr r.shader r.uniforms ts r.camera model r.viewport
    r.front_face r.cull _ _ _ hstep s hP

/-- The depth attachment only ever grows pointwise. -/
def depthLE (s s' : DrawState) : Prop := ∀ a b : Nat, s.depth.get a b ≤ s'.depth.get a b

lemma depthLE_refl (s : DrawState) : depthLE s s := fun _ _ => le_refl _

lemma depthLE_trans (a b c : DrawState) (h1 : depthLE a b) (h2 : depthLE b c) :
    depthLE a c := fun x y => le_trans (h1 x y) (h2 x y)

lemma pixelStep_depthLE {U T : Type} (sh : Shader U T) (u : U) (ts : T) (near : ℚ)
    (vs : Fin 3 → Vertex) (x y : Nat) (s : DrawState) :
    depthLE s (pixelStep sh u ts near vs x y s) := by
  rcases pixelStep_cases sh u ts near vs x y s with h | ⟨h, _, hle⟩
  · rw [h]; exact depthLE_refl s
  · rw [h]
    intro a b
    by_cases hab : a = x ∧ b = y
    · obtain ⟨hax, hby⟩ := hab
      subst hax
      subst hby
      rw [DepthAttachment.get_set_same]
      exact hle
    · rw [DepthAttachment.get_set_other _ _ _ _ _ _ hab]

lemma fillLoop_depthLE {U T : Type} (sh : Shader U T) (u : U) (ts : T) (near : ℚ)
    (vs : Fin 3 → Vertex) (xmin xmax ymin ymax : Nat) (s : DrawState) :
    depthLE s (fillLoop sh u ts near vs xmin xmax ymin ymax s) := by
  unfold fillLoop
  refine foldl_rel depthLE_refl depthLE_trans (fun s' x => ?_) _ s
  exact foldl_rel depthLE_refl depthLE_trans
    (fun s'' y => pixelStep_depthLE sh u ts near vs x y s'') _ s'

lemma processTriangle_depthLE {U T : Type} (lr : LineRast U T) (sh : Shader U T) (u : U)
    (ts : T) (cam : Camera) (model : Mat4) (vp : Viewport) (ff : FrontFace)
    (cull : FaceCull) (v0 v1 v2 : Vertex) (s : DrawState) :
    depthLE s (processTriangle lr sh u ts cam model vp ff cull false v0 v1 v2 s) := by
  unfold processTriangle
  split
  · exact depthLE_refl s
  · split
    · next h => exact absurd h (by simp)
    · exact fillLoop_depthLE _ _ _ _ _ _ _ _ _ s

lemma draw_full_depthLE {U T : Type} (lr : LineRast U T) (r : Renderer U T) (model : Mat4)
    (vs : List Vertex) (ts : T) (hfw : r.enable_framework = false) :
    depthLE ⟨r.color_attachment, r.depth_attachment, []⟩ (draw_full lr r model vs ts) := by
  unfold draw_full
  refine foldl_rel depthLE_refl depthLE_trans (fun s i => ?_) _ _
  rw [hfw]
  exact processTriangle_depthLE lr r.shader r.uniforms ts r.camera model r.viewport
    r.front_face r.cull _ _ _ s

/-- A concrete screen-space triangle (covering pixel (0,0) among others) with
all depths at −1. -/
def wVs : Fin 3 → Vertex := ![mkV 0 0 (-1) 1, mkV 2 0 (-1) 1, mkV 0 2 (-1) 1]

/-- A concrete 3×3 draw state with cleared attachments and an empty trace. -/
def wS : DrawState :=
  ⟨⟨3, 3, fun _ _ => ⟨0, 0, 0, 0⟩⟩, ⟨3, 3, fun _ _ => f32_min⟩, []⟩

/-- C1: at a pixel of the AABB whose barycentric weights are valid, the
fragment is shaded and written iff its reconstructed depth
`z = 1/(α/z₀ + β/z₁ + γ/z₂)` satisfies `z < near` and `depth(x,y) ≤ z`;
`clear_depth` resets every texel to `f32::MIN`; consequently over a fill draw
that starts from a cleared depth buffer every texel ends at the maximum of
`f32::MIN` and the depths written there — the test keeps the farthest
passing fragment at each pixel. -/
theorem C1_depth_test_polarity :
    (∀ {U T : Type} (sh : Shader U T) (u : U) (ts : T) (near : ℚ) (vs : Fin 3 → Vertex)
        (x y : Nat) (s : DrawState), (pixelBer vs x y).is_valid = true →
        ((reconstructedZ vs x y < near ∧ s.depth.get x y ≤ reconstructedZ vs x y →
            pixelStep sh u ts near vs x y s =
              ⟨s.color.set x y (fragColor sh u ts vs x y),
               s.depth.set x y (reconstructedZ vs x y),
               s.trace ++ [⟨x, y, fragColor sh u ts vs x y, reconstructedZ vs x y⟩]⟩)
          ∧ (¬(reconstructedZ vs x y < near ∧ s.depth.get x y ≤ reconstructedZ vs x y) →
              pixelStep sh u ts near vs x y s = s)))
    ∧ (∀ {U T : Type} (r : Renderer U T) (x y : Nat),
        (clear_depth r).depth_attachment.get x y = f32_min)
    ∧ (∀ {U T : Type} (lr : LineRast U T) (r : Renderer U T) (model : Mat4)
        (vs : List Vertex) (ts : T), r.enable_framework = false →
        DepthIsTraceMax (draw_full lr (clear_depth r) model vs ts)) := by
  refine ⟨?_, ?_, ?_⟩
  · intro U T sh u ts near vs x y s hv
    exact ⟨fun h => pixelStep_write sh u ts near vs x y s hv h,
           fun h => pixelStep_nowrite sh u ts near vs x y s h⟩
  · intro U T r x y
    rfl
  · intro U T lr r model vs ts hfw
    refine draw_full_preserve lr (clear_depth r) model vs ts hfw ?_ ?_
    · exact fun vsP s x y hP => pixelStep_depthTraceMax _ _ _ _ vsP x y s hP
    · intro a b
      rfl

lemma wBer_eval : pixelBer wVs 0 0 = ⟨1, 0, 0, true⟩ := by
  simp only [pixelBer, Berycentric.new, screenPts, wVs, mkV, Matrix.cons_val_zero,
    Matrix.cons_val_one, Matrix.head_cons, Matrix.cons_val_two, Matrix.tail_cons]
  norm_num

lemma wZ_eval : reconstructedZ wVs 0 0 = -1 := by
  rw [reconstructedZ, wBer_eval]
  simp only [invZ, wVs, mkV, Matrix.cons_val_zero, Matrix.cons_val_one, Matrix.head_cons,
    Matrix.cons_val_two, Matrix.tail_cons]
  norm_num

lemma wS_depth_eval (a b : Nat) : wS.depth.get a b = f32_min := rfl

/-- Witness for C1 at a concrete valid, passing pixel. -/
theorem C1_witness :
    (pixelBer wVs 0 0).is_valid = true
    ∧ (reconstructedZ wVs 0 0 < 0 ∧ wS.depth.get 0 0 ≤ reconstructedZ wVs 0 0)
    ∧ pixelStep constShader () () 0 wVs 0 0 wS =
        ⟨wS.color.set 0 0 (fragColor constShader () () wVs 0 0),
         wS.depth.set 0 0 (reconstructedZ wVs 0 0),
         wS.trace ++ [⟨0, 0, fragColor constShader () () wVs 0 0, reconstructedZ wVs 0 0⟩]⟩ :=
  ⟨by rw [wBer_eval]; rfl,
   ⟨by rw [wZ_eval]; norm_num, by rw [wZ_eval, wS_depth_eval]; norm_num [f32_min]⟩,
   (C1_depth_test_polarity.1 constShader () () 0 wVs 0 0 wS (by rw [wBer_eval]; rfl)).1
     ⟨by rw [wZ_eval]; norm_num, by rw [wZ_eval, wS_depth_eval]; norm_num [f32_min]⟩⟩

/-- C10: color, depth and trace writes are coupled — a pixel step either
leaves the state alone or performs the single guarded write whose stored
depth is the reconstructed z, strictly below near and at least the old
depth — and over a fill draw the depth at a fixed pixel never decreases. -/
theorem C10_write_coupling :
    (∀ {U T : Type} (sh : Shader U T) (u : U) (ts : T) (near : ℚ) (vs : Fin 3 → Vertex)
        (x y : Nat) (s : DrawState),
        pixelStep sh u ts near vs x y s = s ∨
          (pixelStep sh u ts near vs x y s =
              ⟨s.color.set x y (fragColor sh u ts vs x y),
               s.depth.set x y (reconstructedZ vs x y),
               s.trace ++ [⟨x, y, fragColor sh u ts vs x y, reconstructedZ vs x y⟩]⟩
            ∧ reconstructedZ vs x y < near ∧ s.depth.get x y ≤ reconstructedZ vs x y))
    ∧ (∀ {U T : Type} (lr : LineRast U T) (r : Renderer U T) (model : Mat4)
        (vs : List Vertex) (ts : T) (x y : Nat), r.enable_framework = false →
        r.depth_attachment.get x y ≤
          (draw_triangle lr r model vs ts).depth_attachment.get x y) := by
  constructor
  · intro U T sh u ts near vs x y s
    exact pixelStep_cases sh u ts near vs x y s
  · intro U T lr r model vs ts x y hfw
    exact draw_full_depthLE lr r model vs ts hfw x y

/-- Witness for C10 at a concrete fill-mode renderer. -/
theorem C10_witness :
    (mkRenderer 1 1).enable_framework = false
    ∧ (mkRenderer 1 1).depth_attachment.get 0 0 ≤
        (draw_triangle idLR (mkRenderer 1 1) Mat4.id [] ()).depth_attachment.get 0 0 :=
  ⟨rfl, C10_write_coupling.2 idLR (mkRenderer 1 1) Mat4.id [] () 0 0 rfl⟩

/-! ### Constant-attribute law -/

lemma vec2_smul_def (a : Vec2) (s : ℚ) : a * s = ⟨a.x * s, a.y * s⟩ := rfl

lemma vec2_sdiv_def (a : Vec2) (s : ℚ) : a / s = ⟨a.x / s, a.y / s⟩ := rfl

lemma vec2_add_def (a b : Vec2) : a + b = ⟨a.x + b.x, a.y + b.y⟩ := rfl

lemma vec3_smul_def (a : Vec3) (s : ℚ) : a * s = ⟨a.x * s, a.y * s, a.z * s⟩ := rfl

lemma vec3_sdiv_def (a : Vec3) (s : ℚ) : a / s = ⟨a.x / s, a.y / s, a.z / s⟩ := rfl

lemma vec3_add_def (a b : Vec3) : a + b = ⟨a.x + b.x, a.y + b.y, a.z + b.z⟩ := rfl

lemma vec4_smul_def (a : Vec4) (s : ℚ) : a * s = ⟨a.x * s, a.y * s, a.z * s, a.w * s⟩ := rfl

lemma vec4_sdiv_def (a : Vec4) (s : ℚ) : a / s = ⟨a.x / s, a.y / s, a.z / s, a.w / s⟩ := rfl

lemma vec4_add_def (a b : Vec4) :
    a + b = ⟨a.x + b.x, a.y + b.y, a.z + b.z, a.w + b.w⟩ := rfl

/-- Interpolating a slot whose three vertex values agree yields that value,
whatever the three depths are, as long as `inv_z` is nonzero. -/
lemma const_slot_correct (a alpha beta gamma z0 z1 z2 : ℚ)
    (h : alpha / z0 + beta / z1 + gamma / z2 ≠ 0) :
    (a * alpha / z0 + a * beta / z1 + a * gamma / z2) *
      (1 / (alpha / z0 + beta / z1 + gamma / z2)) = a := by
  have e : a * alpha / z0 + a * beta / z1 + a * gamma / z2
      = a * (alpha / z0 + beta / z1 + gamma / z2) := by ring
  rw [e, mul_one_div, mul_div_assoc, div_self h, mul_one]

lemma const_slot_correct2 (a2 : Vec2) (alpha beta gamma z0 z1 z2 : ℚ)
    (h : alpha / z0 + beta / z1 + gamma / z2 ≠ 0) :
    (a2 * alpha / z0 + a2 * beta / z1 + a2 * gamma / z2) *
      (1 / (alpha / z0 + beta / z1 + gamma / z2)) = a2 := by
  refine Vec2.ext ?_ ?_ <;>
    simp only [vec2_smul_def, vec2_sdiv_def, vec2_add_def] <;>
    exact const_slot_correct _ _ _ _ _ _ _ h

lemma const_slot_correct3 (a3 : Vec3) (alpha beta gamma z0 z1 z2 : ℚ)
    (h : alpha / z0 + beta / z1 + gamma / z2 ≠ 0) :
    (a3 * alpha / z0 + a3 * beta / z1 + a3 * gamma / z2) *
      (1 / (alpha / z0 + beta / z1 + gamma / z2)) = a3 := by
  refine Vec3.ext ?_ ?_ ?_ <;>
    simp only [vec3_smul_def, vec3_sdiv_def, vec3_add_def] <;>
    exact const_slot_correct _ _ _ _ _ _ _ h

lemma const_slot_correct4 (a4 : Vec4) (alpha beta gamma z0 z1 z2 : ℚ)
    (h : alpha / z0 + beta / z1 + gamma / z2 ≠ 0) :
    (a4 * alpha / z0 + a4 * beta / z1 + a4 * gamma / z2) *
      (1 / (alpha / z0 + beta / z1 + gamma / z2)) = a4 := by
  refine Vec4.ext ?_ ?_ ?_ ?_ <;>
    simp only [vec4_smul_def, vec4_sdiv_def, vec4_add_def] <;>
    exact const_slot_correct _ _ _ _ _ _ _ h

/-- C3: constant-attribute law — if the three vertices carry the same value
in a slot (in any of the four arrays), a covered pixel that passes the depth
test receives exactly that value from the perspective-correct interpolation,
independent of the per-vertex depths.  The hypothesis that `inv_z` is nonzero
reflects the source's `f32` arithmetic, where a zero `inv_z` gives an
infinite reconstructed depth that can never pass the finite near test. -/
theorem C3_constant_attribute (vs : Fin 3 → Vertex) (x y : Nat) (near dbuf : ℚ)
    (i : Fin attrLen) (a : ℚ) (a2 : Vec2) (a3 : Vec3) (a4 : Vec4)
    (hvalid : (pixelBer vs x y).is_valid = true)
    (hpass : reconstructedZ vs x y < near ∧ dbuf ≤ reconstructedZ vs x y)
    (hfin : invZ vs (pixelBer vs x y) ≠ 0)
    (hf : (vs 0).attributes.float i = a ∧ (vs 1).attributes.float i = a
      ∧ (vs 2).attributes.float i = a)
    (h2 : (vs 0).attributes.vec2 i = a2 ∧ (vs 1).attributes.vec2 i = a2
      ∧ (vs 2).attributes.vec2 i = a2)
    (h3 : (vs 0).attributes.vec3 i = a3 ∧ (vs 1).attributes.vec3 i = a3
      ∧ (vs 2).attributes.vec3 i = a3)
    (h4 : (vs 0).attributes.vec4 i = a4 ∧ (vs 1).attributes.vec4 i = a4
      ∧ (vs 2).attributes.vec4 i = a4) :
    (get_corrected_attribute (reconstructedZ vs x y) vs (pixelBer vs x y)).float i = a
    ∧ (get_corrected_attribute (reconstructedZ vs x y) vs (pixelBer vs x y)).vec2 i = a2
    ∧ (get_corrected_attribute (reconstructedZ vs x y) vs (pixelBer vs x y)).vec3 i = a3
    ∧ (get_corrected_attribute (reconstructedZ vs x y) vs (pixelBer vs x y)).vec4 i = a4 := by
  obtain ⟨hf0, hf1, hf2⟩ := hf
  obtain ⟨h20, h21, h22⟩ := h2
  obtain ⟨h30, h31, h32⟩ := h3
  obtain ⟨h40, h41, h42⟩ := h4
  refine ⟨?_, ?_, ?_, ?_⟩
  · simp only [get_corrected_attribute]
    rw [hf0, hf1, hf2]
    exact const_slot_correct a _ _ _ _ _ _ hfin
  · simp only [get_corrected_attribute]
    rw [h20, h21, h22]
    exact const_slot_correct2 a2 _ _ _ _ _ _ hfin
  · simp only [get_corrected_attribute]
    rw [h30, h31, h32]
    exact const_slot_correct3 a3 _ _ _ _ _ _ hfin
  · simp only [get_corrected_attribute]
    rw [h40, h41, h42]
    exact const_slot_correct4 a4 _ _ _ _ _ _ hfin

/-- Attributes carrying the same nonzero constants in every slot. -/
def wAttr : Attributes :=
  ⟨fun _ => 5, fun _ => ⟨1, 2⟩, fun _ => ⟨1, 2, 3⟩, fun _ => ⟨1, 2, 3, 4⟩⟩

/-- A screen-space triangle with distinct vertex depths −1, −2, −4 and
constant attributes. -/
def wV3 : Fin 3 → Vertex :=
  ![⟨⟨0, 0, -1, 1⟩, wAttr⟩, ⟨⟨2, 0, -2, 1⟩, wAttr⟩, ⟨⟨0, 2, -4, 1⟩, wAttr⟩]

/-- Slot 0. -/
def i0 : Fin attrLen := ⟨0, by norm_num [attrLen]⟩

lemma wV3Ber_eval : pixelBer wV3 0 1 = ⟨1 / 2, 0, 1 / 2, true⟩ := by
  simp only [pixelBer, Berycentric.new, screenPts, wV3, Matrix.cons_val_zero,
    Matrix.cons_val_one, Matrix.head_cons, Matrix.cons_val_two, Matrix.tail_cons]
  norm_num

lemma wV3inv_eval : invZ wV3 (pixelBer wV3 0 1) = -5 / 8 := by
  rw [wV3Ber_eval]
  simp only [invZ, wV3, Matrix.cons_val_zero, Matrix.cons_val_one, Matrix.head_cons,
    Matrix.cons_val_two, Matrix.tail_cons]
  norm_num

lemma wV3Z_eval : reconstructedZ wV3 0 1 = -8 / 5 := by
  rw [reconstructedZ, wV3inv_eval]
  norm_num

/-- Witness for C3 at a pixel with all three barycentric weights involved and
three different vertex depths. -/
theorem C3_witness :
    (invZ wV3 (pixelBer wV3 0 1) ≠ 0
      ∧ reconstructedZ wV3 0 1 < 0 ∧ f32_min ≤ reconstructedZ wV3 0 1)
    ∧ (get_corrected_attribute (reconstructedZ wV3 0 1) wV3 (pixelBer wV3 0 1)).float i0
        = 5 :=
  ⟨⟨by rw [wV3inv_eval]; norm_num,
    by rw [wV3Z_eval]; norm_num,
    by rw [wV3Z_eval]; norm_num [f32_min]⟩,
   (C3_constant_attribute wV3 0 1 0 f32_min i0 5 ⟨1, 2⟩ ⟨1, 2, 3⟩ ⟨1, 2, 3, 4⟩
      (by rw [wV3Ber_eval]; rfl)
      ⟨by rw [wV3Z_eval]; norm_num, by rw [wV3Z_eval]; norm_num [f32_min]⟩
      (by rw [wV3inv_eval]; norm_num)
      ⟨rfl, rfl, rfl⟩ ⟨rfl, rfl, rfl⟩ ⟨rfl, rfl, rfl⟩ ⟨rfl, rfl, rfl⟩).1⟩

/-! ### Wireframe branch -/

lemma finRange3 : List.finRange 3 = [0, 1, 2] := by decide

lemma fin3_add_01 : (0 : Fin 3) + 1 = 1 := rfl

lemma fin3_add_11 : (1 : Fin 3) + 1 = 2 := rfl

lemma fin3_add_21 : (2 : Fin 3) + 1 = 0 := rfl

/-- The wireframe branch spelled out: the three edges (0,1), (1,2), (2,0)
with reciprocal-depth endpoints, threaded through the line rasterizer. -/
lemma drawEdges_eq {U T : Type} (lr : LineRast U T) (sh : Shader U T) (u : U) (ts : T)
    (vs : Fin 3 → Vertex) (s : DrawState) :
    drawEdges lr sh u ts vs s =
      (let cd1 := lr (Line.new (recipZ (vs 0)) (recipZ (vs 1))) sh.pixel_shading u ts
        s.color s.depth
       let cd2 := lr (Line.new (recipZ (vs 1)) (recipZ (vs 2))) sh.pixel_shading u ts
        cd1.1 cd1.2
       let cd3 := lr (Line.new (recipZ (vs 2)) (recipZ (vs 0))) sh.pixel_shading u ts
        cd2.1 cd2.2
       ⟨cd3.1, cd3.2, s.trace⟩) := by
  simp only [drawEdges, finRange3, List.foldl_cons, List.foldl_nil, fin3_add_01,
    fin3_add_11, fin3_add_21]

lemma processTriangle_culled {U T : Type} (lr : LineRast U T) (sh : Shader U T) (u : U)
    (ts : T) (cam : Camera) (model : Mat4) (vp : Viewport) (ff : FrontFace)
    (cull : FaceCull) (fw : Bool) (v0 v1 v2 : Vertex) (s : DrawState)
    (hc : should_cull
        (fun i => ((mvVerts sh u ts cam model v0 v1 v2) i).position.truncated_to_vec3)
        (-Vec3.z_axis) ff cull = true) :
    processTriangle lr sh u ts cam model vp ff cull fw v0 v1 v2 s = s := by
  unfold processTriangle
  rw [hc]
  simp

lemma processTriangle_fw_eq {U T : Type} (lr : LineRast U T) (sh : Shader U T) (u : U)
    (ts : T) (cam : Camera) (model : Mat4) (vp : Viewport) (ff : FrontFace)
    (cull : FaceCull) (v0 v1 v2 : Vertex) (s : DrawState)
    (hc : should_cull
        (fun i => ((mvVerts sh u ts cam model v0 v1 v2) i).position.truncated_to_vec3)
        (-Vec3.z_axis) ff cull = false) :
    processTriangle lr sh u ts cam model vp ff cull true v0 v1 v2 s =
      drawEdges lr sh u ts (pipelineVerts sh u ts cam model vp v0 v1 v2) s := by
  unfold processTriangle
  rw [hc]
  simp

/-- C7: with the framework toggle on, the per-pixel fill loop never runs (no
fill-path write is recorded for any triangle); an unculled triangle is
processed by delegating, for each edge (i, (i+1) mod 3), the line built from
the two post-viewport vertices with z replaced by 1/z to the line rasterizer
together with the pixel shader, uniforms, texture storage and both
attachments; hence if the rasterizer only writes inside a footprint of its
line, every pixel outside the three edge footprints keeps its previous
contents. -/
theorem C7_wireframe :
    (∀ {U T : Type} (lr : LineRast U T) (sh : Shader U T) (u : U) (ts : T) (cam : Camera)
        (model : Mat4) (vp : Viewport) (ff : FrontFace) (cull : FaceCull)
        (v0 v1 v2 : Vertex) (s : DrawState),
        (processTriangle lr sh u ts cam model vp ff cull true v0 v1 v2 s).trace = s.trace)
    ∧ (∀ {U T : Type} (lr : LineRast U T) (sh : Shader U T) (u : U) (ts : T) (cam : Camera)
        (model : Mat4) (vp : Viewport) (ff : FrontFace) (cull : FaceCull)
        (v0 v1 v2 : Vertex) (s : DrawState),
        should_cull
            (fun i => ((mvVerts sh u ts cam model v0 v1 v2) i).position.truncated_to_vec3)
            (-Vec3.z_axis) ff cull = false →
        processTriangle lr sh u ts cam model vp ff cull true v0 v1 v2 s =
          (let vs6 := pipelineVerts sh u ts cam model vp v0 v1 v2
           let cd1 := lr (Line.new (recipZ (vs6 0)) (recipZ (vs6 1))) sh.pixel_shading u ts
            s.color s.depth
           let cd2 := lr (Line.new (recipZ (vs6 1)) (recipZ (vs6 2))) sh.pixel_shading u ts
            cd1.1 cd1.2
           let cd3 := lr (Line.new (recipZ (vs6 2)) (recipZ (vs6 0))) sh.pixel_shading u ts
            cd2.1 cd2.2
           ⟨cd3.1, cd3.2, s.trace⟩))
    ∧ (∀ {U T : Type} (lr : LineRast U T) (S : Line → Nat → Nat → Prop) (sh : Shader U T)
        (u : U) (ts : T) (cam : Camera) (model : Mat4) (vp : Viewport) (ff : FrontFace)
        (cull : FaceCull) (v0 v1 v2 : Vertex) (s : DrawState),
        (∀ (line : Line) (psh : Attributes → U → T → Vec4) (u' : U) (ts' : T)
            (c : ColorAttachment) (d : DepthAttachment) (x y : Nat), ¬ S line x y →
            ((lr line psh u' ts' c d).1.data x y = c.data x y
              ∧ (lr line psh u' ts' c d).2.data x y = d.data x y)) →
        ∀ x y : Nat,
        ¬ S (Line.new (recipZ (pipelineVerts sh u ts cam model vp v0 v1 v2 0))
              (recipZ (pipelineVerts sh u ts cam model vp v0 v1 v2 1))) x y →
        ¬ S (Line.new (recipZ (pipelineVerts sh u ts cam model vp v0 v1 v2 1))
              (recipZ (pipelineVerts sh u ts cam model vp v0 v1 v2 2))) x y →
        ¬ S (Line.new (recipZ (pipelineVerts sh u ts cam model vp v0 v1 v2 2))
              (recipZ (pipelineVerts sh u ts cam model vp v0 v1 v2 0))) x y →
        ((processTriangle lr sh u ts cam model vp ff cull true v0 v1 v2 s).color.data x y
            = s.color.data x y
          ∧ (processTriangle lr sh u ts cam model vp ff cull true v0 v1 v2 s).depth.data x y
            = s.depth.data x y)) := by
  refine ⟨?_, ?_, ?_⟩
  · intro U T lr sh u ts cam model vp ff cull v0 v1 v2 s
    by_cases hc : should_cull
        (fun i => ((mvVerts sh u ts cam model v0 v1 v2) i).position.truncated_to_vec3)
        (-Vec3.z_axis) ff cull
    · rw [processTriangle_culled lr sh u ts cam model vp ff cull true v0 v1 v2 s hc]
    · rw [processTriangle_fw_eq lr sh u ts cam model vp ff cull v0 v1 v2 s
        (by simpa using hc), drawEdges_eq]
  · intro U T lr sh u ts cam model vp ff cull v0 v1 v2 s hc
    rw [processTriangle_fw_eq lr sh u ts cam model vp ff cull v0 v1 v2 s hc, drawEdges_eq]
  · intro U T lr S sh u ts cam model vp ff cull v0 v1 v2 s hloc x y h01 h12 h20
    by_cases hc : should_cull
        (fun i => ((mvVerts sh u ts cam model v0 v1 v2) i).position.truncated_to_vec3)
        (-Vec3.z_axis) ff cull
    · rw [processTriangle_culled lr sh u ts cam model vp ff cull true v0 v1 v2 s hc]
      exact ⟨rfl, rfl⟩
    · rw [processTriangle_fw_eq lr sh u ts cam model vp ff cull v0 v1 v2 s
        (by simpa using hc), drawEdges_eq]
      obtain ⟨hc1, hd1⟩ := hloc _ sh.pixel_shading u ts s.color s.depth x y h01
      obtain ⟨hc2, hd2⟩ := hloc _ sh.pixel_shading u ts _ _ x y h12
      obtain ⟨hc3, hd3⟩ := hloc _ sh.pixel_shading u ts _ _ x y h20
      exact ⟨by rw [hc3, hc2, hc1], by rw [hd3, hd2, hd1]⟩

/-- Witness for C7: with a line rasterizer that writes nothing (footprint
`False`), a concrete wireframe triangle leaves any pixel untouched. -/
theorem C7_witness :
    (processTriangle idLR constShader () () idCamera Mat4.id ⟨0, 0, 3, 3⟩ FrontFace.ccw
        FaceCull.none true (mkV 0 0 (-1) 1) (mkV 2 0 (-1) 1) (mkV 0 2 (-1) 1) wS).color.data
        2 2 = wS.color.data 2 2
    ∧ (processTriangle idLR constShader () () idCamera Mat4.id ⟨0, 0, 3, 3⟩ FrontFace.ccw
        FaceCull.none true (mkV 0 0 (-1) 1) (mkV 2 0 (-1) 1) (mkV 0 2 (-1) 1) wS).depth.data
        2 2 = wS.depth.data 2 2 :=
  C7_wireframe.2.2 idLR (fun _ _ _ => False) constShader () () idCamera Mat4.id
    ⟨0, 0, 3, 3⟩ FrontFace.ccw FaceCull.none (mkV 0 0 (-1) 1) (mkV 2 0 (-1) 1)
    (mkV 0 2 (-1) 1) wS (fun _ _ _ _ _ _ _ _ _ => ⟨rfl, rfl⟩) 2 2 not_false not_false
    not_false

/-! ### Pixel visiting order -/

/-- The cull test never fires with `FaceCull::None`. -/
lemma should_cull_none (pts : Fin 3 → Vec3) (vd : Vec3) (ff : FrontFace) :
    should_cull pts vd ff FaceCull.none = false := rfl

/-- A 3×3 renderer. -/
def r6 : Renderer Unit Unit := mkRenderer 3 3

/-- One triangle whose post-viewport vertices are (0,0), (2,0), (0,2) on the
3×3 canvas. -/
def verts6 : List Vertex := [mkV (-1) 2 0 1, mkV 1 2 0 1, mkV (-1) 0 0 1]

set_option maxHeartbeats 2000000 in
lemma draw6_eval :
    (draw_full idLR r6 Mat4.id verts6 ()).trace.map (fun f => (f.x, f.y)) =
      [(0, 0), (0, 1), (0, 2), (1, 0), (1, 1), (2, 0)] := by
  norm_num [draw_full, verts6, r6, mkRenderer, processTriangle, should_cull_none, fillLoop,
    pixelStep, pixelBer, reconstructedZ, invZ, Berycentric.new, Berycentric.is_valid,
    screenPts, pipelineVerts, postViewport, mvVerts, modelViewStage, vertexShaderStage,
    projStage, setTrueZ, perspectiveDivide, viewportTransform, aabbMinX, aabbMaxX, aabbMinY,
    aabbMaxY, foldMin, foldMax, ratCeil, ratFloor, ratToU32, u32Max, natRangeIncl, f32_max,
    f32_min, DepthAttachment.get, DepthAttachment.set, ColorAttachment.set,
    Camera.get_frustum, idCamera, constShader, Shader.call_vertex_changing,
    Shader.call_pixel_shading, mkV, Mat4.id, Mat4.mulVec, Mat4.mulMat,
    Matrix.cons_val_zero, Matrix.cons_val_one, Matrix.head_cons, Matrix.cons_val_two,
    Matrix.tail_cons, List.range_succ, Int.toNat_ofNat, List.range']

/-- Counterexample to C6 as stated: a single concrete triangle whose fill
writes happen at y coordinates 0,1,2,0,1,0 — pixel (0,1) is written before
pixel (1,0), so the AABB walk is not row-major (y is not monotone along the
write sequence). -/
theorem C6_counterexample :
    (draw_full idLR r6 Mat4.id verts6 ()).trace.map Fragment.y = [0, 1, 2, 0, 1, 0]
    ∧ ¬ List.Pairwise (fun p q => p ≤ q)
        ((draw_full idLR r6 Mat4.id verts6 ()).trace.map Fragment.y) := by
  have hy : (draw_full idLR r6 Mat4.id verts6 ()).trace.map Fragment.y =
      ((draw_full idLR r6 Mat4.id verts6 ()).trace.map (fun f => (f.x, f.y))).map Prod.snd := by
    simp [List.map_map]
  rw [hy, draw6_eval]
  exact ⟨rfl, by decide⟩

/-- The column-major comparison on pixel coordinates: earlier column, or same
column and earlier row. -/
def colMajor (p q : Nat × Nat) : Prop := p.1 < q.1 ∨ (p.1 = q.1 ∧ p.2 < q.2)

/-- The order in which the fill loop visits the AABB: x outer, y inner. -/
def visitOrder (xmin xmax ymin ymax : Nat) : List (Nat × Nat) :=
  (natRangeIncl xmin xmax).flatMap fun x => (natRangeIncl ymin ymax).map fun y => (x, y)

lemma foldl_bind {σ α β : Type} (f : σ → β → σ) (g : α → List β) :
    ∀ (l : List α) (s : σ), (l.flatMap g).foldl f s = l.foldl (fun s a => (g a).foldl f s) s
  | [], _ => rfl
  | a :: t, s => by
      rw [List.flatMap_cons, List.foldl_append, List.foldl_cons]
      exact foldl_bind f g t _

lemma fillLoop_eq_visitOrder {U T : Type} (sh : Shader U T) (u : U) (ts : T) (near : ℚ)
    (vs : Fin 3 → Vertex) (xmin xmax ymin ymax : Nat) (s : DrawState) :
    fillLoop sh u ts near vs xmin xmax ymin ymax s =
      (visitOrder xmin xmax ymin ymax).foldl
        (fun st p => pixelStep sh u ts near vs p.1 p.2 st) s := by
  rw [visitOrder, foldl_bind]
  unfold fillLoop
  refine foldl_congr_mem _ _ ?_
  intro s' x _
  rw [List.foldl_map]

lemma pairwise_visitOrder_aux (ymin ymax : Nat) :
    ∀ (xs : List Nat), List.Pairwise (fun a b => a < b) xs →
      List.Pairwise colMajor
        (xs.flatMap fun x => (natRangeIncl ymin ymax).map fun y => (x, y))
  | [], _ => List.Pairwise.nil
  | x :: t, h => by
      rw [List.flatMap_cons, List.pairwise_append]
      refine ⟨?_, pairwise_visitOrder_aux ymin ymax t (List.pairwise_cons.mp h).2, ?_⟩
      · refine List.pairwise_map.mpr ?_
        refine (List.pairwise_lt_range' _ _).imp ?_
        intro a b hab
        exact Or.inr ⟨rfl, hab⟩
      · intro p hp q hq
        obtain ⟨y1, _, rfl⟩ := List.mem_map.mp hp
        obtain ⟨x', hx', hq'⟩ := List.mem_flatMap.mp hq
        obtain ⟨y2, _, rfl⟩ := List.mem_map.mp hq'
        exact Or.inl ((List.pairwise_cons.mp h).1 x' hx')

/-- C6 (amended): triangles are processed in vertex-array order, and within
each triangle the fill path visits the pixels of its AABB in column-major
order — x is the outer loop, y the inner loop, so all y values of one column
come before any pixel of the next column. -/
theorem C6_visit_order :
    (∀ {U T : Type} (lr : LineRast U T) (r : Renderer U T) (model : Mat4)
        (vs : List Vertex) (ts : T),
        draw_full lr r model vs ts =
          (List.range (vs.length / 3)).foldl
            (fun s i =>
              processTriangle lr r.shader r.uniforms ts r.camera model r.viewport
                r.front_face r.cull r.enable_framework (vs.getD (i * 3) default)
                (vs.getD (1 + i * 3) default) (vs.getD (2 + i * 3) default) s)
            ⟨r.color_attachment, r.depth_attachment, []⟩)
    ∧ (∀ {U T : Type} (sh : Shader U T) (u : U) (ts : T) (near : ℚ) (vs : Fin 3 → Vertex)
        (xmin xmax ymin ymax : Nat) (s : DrawState),
        fillLoop sh u ts near vs xmin xmax ymin ymax s =
          (visitOrder xmin xmax ymin ymax).foldl
            (fun st p => pixelStep sh u ts near vs p.1 p.2 st) s)
    ∧ (∀ xmin xmax ymin ymax : Nat,
        List.Pairwise colMajor (visitOrder xmin xmax ymin ymax)) := by
  refine ⟨?_, ?_, ?_⟩
  · intro U T lr r model vs ts
    rfl
  · intro U T sh u ts near vs xmin xmax ymin ymax s
    exact fillLoop_eq_visitOrder sh u ts near vs xmin xmax ymin ymax s
  · intro xmin xmax ymin ymax
    exact pairwise_visitOrder_aux ymin ymax _ (List.pairwise_lt_range' _ _)

/-! ### Bounds on the clamped AABB -/

lemma ratToU32_le {q : ℚ} {n : Nat} (h : q ≤ (n : ℚ)) : ratToU32 q ≤ n := by
  unfold ratToU32
  split
  · exact Nat.zero_le n
  · refine le_trans (min_le_left _ _) ?_
    have h1 : ⌊q⌋ ≤ (n : ℤ) := by
      have h2 := Int.floor_le_floor h
      rwa [Int.floor_natCast] at h2
    omega

lemma ratToU32_ge {q : ℚ} {n : Nat} (hn : n ≤ u32Max) (h : (n : ℚ) ≤ q) :
    n ≤ ratToU32 q := by
  unfold ratToU32
  split
  · next hq =>
      have hlt : ((n : ℚ)) < 0 := lt_of_le_of_lt h hq
      exact absurd hlt (not_lt.mpr (by positivity))
  · refine le_min ?_ hn
    have h1 : (n : ℤ) ≤ ⌊q⌋ := Int.le_floor.mpr (by exact_mod_cast h)
    omega

lemma ratToU32_neg {q : ℚ} (h : q < 0) : ratToU32 q = 0 := by
  unfold ratToU32
  rw [if_pos h]

lemma mem_natRangeIncl {x a b : Nat} (h : x ∈ natRangeIncl a b) : a ≤ x ∧ x ≤ b := by
  unfold natRangeIncl at h
  rw [List.mem_range'_1] at h
  omega

lemma natRangeIncl_eq_nil {a b : Nat} (h : b < a) : natRangeIncl a b = [] := by
  unfold natRangeIncl
  have h0 : b + 1 - a = 0 := by omega
  rw [h0]
  rfl

lemma foldl_id {σ α : Type} : ∀ (l : List α) (s : σ), List.foldl (fun st _ => st) s l = s
  | [], _ => rfl
  | _ :: t, s => foldl_id t s

lemma foldMin_le0 (f : Vertex → ℚ) (vs : Fin 3 → Vertex) : foldMin f vs ≤ f (vs 0) := by
  unfold foldMin
  dsimp only
  split_ifs <;> linarith

lemma foldMin_le1 (f : Vertex → ℚ) (vs : Fin 3 → Vertex) : foldMin f vs ≤ f (vs 1) := by
  unfold foldMin
  dsimp only
  split_ifs <;> linarith

lemma foldMin_le2 (f : Vertex → ℚ) (vs : Fin 3 → Vertex) : foldMin f vs ≤ f (vs 2) := by
  unfold foldMin
  dsimp only
  split_ifs <;> linarith

lemma foldMax_ge0 (f : Vertex → ℚ) (vs : Fin 3 → Vertex) : f (vs 0) ≤ foldMax f vs := by
  unfold foldMax
  dsimp only
  split_ifs <;> linarith

lemma foldMax_ge1 (f : Vertex → ℚ) (vs : Fin 3 → Vertex) : f (vs 1) ≤ foldMax f vs := by
  unfold foldMax
  dsimp only
  split_ifs <;> linarith

lemma foldMax_ge2 (f : Vertex → ℚ) (vs : Fin 3 → Vertex) : f (vs 2) ≤ foldMax f vs := by
  unfold foldMax
  dsimp only
  split_ifs <;> linarith

lemma aabbMaxX_le (vs : Fin 3 → Vertex) {w : Nat} (hw : 1 ≤ w) :
    ratToU32 (aabbMaxX vs w) ≤ w - 1 := by
  refine ratToU32_le ?_
  refine le_trans (min_le_right _ _) ?_
  rw [Nat.cast_sub hw, Nat.cast_one]

lemma aabbMaxY_le (vs : Fin 3 → Vertex) {h : Nat} (hh : 1 ≤ h) :
    ratToU32 (aabbMaxY vs h) ≤ h - 1 := by
  refine ratToU32_le ?_
  refine le_trans (min_le_right _ _) ?_
  rw [Nat.cast_sub hh, Nat.cast_one]

/-- A valid barycentric result gives nonnegative weights that sum to 1 and
express the point as the matching combination of the triangle's corners. -/
lemma Berycentric.new_valid_combo (p : Vec2) (pts : Fin 3 → Vec2)
    (h : (Berycentric.new p pts).is_valid = true) :
    0 ≤ (Berycentric.new p pts).alpha ∧ 0 ≤ (Berycentric.new p pts).beta
    ∧ 0 ≤ (Berycentric.new p pts).gamma
    ∧ (Berycentric.new p pts).alpha + (Berycentric.new p pts).beta
        + (Berycentric.new p pts).gamma = 1
    ∧ (Berycentric.new p pts).alpha * (pts 0).x + (Berycentric.new p pts).beta * (pts 1).x
        + (Berycentric.new p pts).gamma * (pts 2).x = p.x
    ∧ (Berycentric.new p pts).alpha * (pts 0).y + (Berycentric.new p pts).beta * (pts 1).y
        + (Berycentric.new p pts).gamma * (pts 2).y = p.y := by
  unfold Berycentric.is_valid at h
  unfold Berycentric.new at h ⊢
  by_cases hdet :
      ((pts 1).x - (pts 0).x) * ((pts 2).y - (pts 0).y)
        - ((pts 2).x - (pts 0).x) * ((pts 1).y - (pts 0).y) = 0
  · rw [if_pos hdet] at h
    exact absurd h (by simp)
  · rw [if_neg hdet] at h ⊢
    simp only [Bool.and_eq_true, decide_eq_true_eq] at h
    obtain ⟨⟨ha, hb⟩, hg⟩ := h
    refine ⟨ha, hb, hg, by ring, ?_, ?_⟩
    · field_simp
      ring
    · field_simp
      ring

/-- A convex combination of negative numbers is negative. -/
lemma convex_neg {alpha beta gamma x0 x1 x2 px : ℚ} (ha : 0 ≤ alpha) (hb : 0 ≤ beta)
    (hg : 0 ≤ gamma) (hsum : alpha + beta + gamma = 1)
    (hcomb : alpha * x0 + beta * x1 + gamma * x2 = px)
    (h0 : x0 < 0) (h1 : x1 < 0) (h2 : x2 < 0) : px < 0 := by
  have hx0 : alpha * x0 ≤ 0 := mul_nonpos_of_nonneg_of_nonpos ha h0.le
  have hx1 : beta * x1 ≤ 0 := mul_nonpos_of_nonneg_of_nonpos hb h1.le
  have hx2 : gamma * x2 ≤ 0 := mul_nonpos_of_nonneg_of_nonpos hg h2.le
  by_cases hA : 0 < alpha
  · have : alpha * x0 < 0 := mul_neg_of_pos_of_neg hA h0
    linarith
  · have hA0 : alpha = 0 := le_antisymm (not_lt.mp hA) ha
    by_cases hB : 0 < beta
    · have : beta * x1 < 0 := mul_neg_of_pos_of_neg hB h1
      linarith
    · have hB0 : beta = 0 := le_antisymm (not_lt.mp hB) hb
      have hG : 0 < gamma := by rw [hA0, hB0] at hsum; linarith
      have : gamma * x2 < 0 := mul_neg_of_pos_of_neg hG h2
      linarith

/-- A pixel in column 0 cannot be covered by a triangle that lies entirely at
negative x. -/
lemma pixelStep_outside_left {U T : Type} (sh : Shader U T) (u : U) (ts : T) (near : ℚ)
    (vs : Fin 3 → Vertex) (y : Nat) (s : DrawState)
    (hmax : foldMax (fun v => v.position.x) vs < 0) :
    pixelStep sh u ts near vs 0 y s = s := by
  rcases hv : (pixelBer vs 0 y).is_valid with _ | _
  · exact pixelStep_invalid sh u ts near vs 0 y s hv
  · exfalso
    obtain ⟨ha, hb, hg, hsum, hx, _⟩ :=
      Berycentric.new_valid_combo ⟨((0 : Nat) : ℚ), (y : ℚ)⟩ (screenPts vs) hv
    have h0 : (screenPts vs 0).x < 0 :=
      lt_of_le_of_lt (foldMax_ge0 (fun v => v.position.x) vs) hmax
    have h1 : (screenPts vs 1).x < 0 :=
      lt_of_le_of_lt (foldMax_ge1 (fun v => v.position.x) vs) hmax
    have h2 : (screenPts vs 2).x < 0 :=
      lt_of_le_of_lt (foldMax_ge2 (fun v => v.position.x) vs) hmax
    have hpx := convex_neg ha hb hg hsum hx h0 h1 h2
    simp at hpx

/-- A pixel in row 0 cannot be covered by a triangle that lies entirely at
negative y. -/
lemma pixelStep_outside_top {U T : Type} (sh : Shader U T) (u : U) (ts : T) (near : ℚ)
    (vs : Fin 3 → Vertex) (x : Nat) (s : DrawState)
    (hmax : foldMax (fun v => v.position.y) vs < 0) :
    pixelStep sh u ts near vs x 0 s = s := by
  rcases hv : (pixelBer vs x 0).is_valid with _ | _
  · exact pixelStep_invalid sh u ts near vs x 0 s hv
  · exfalso
    obtain ⟨ha, hb, hg, hsum, _, hy⟩ :=
      Berycentric.new_valid_combo ⟨(x : ℚ), ((0 : Nat) : ℚ)⟩ (screenPts vs) hv
    have h0 : (screenPts vs 0).y < 0 :=
      lt_of_le_of_lt (foldMax_ge0 (fun v => v.position.y) vs) hmax
    have h1 : (screenPts vs 1).y < 0 :=
      lt_of_le_of_lt (foldMax_ge1 (fun v => v.position.y) vs) hmax
    have h2 : (screenPts vs 2).y < 0 :=
      lt_of_le_of_lt (foldMax_ge2 (fun v => v.position.y) vs) hmax
    have hpy := convex_neg ha hb hg hsum hy h0 h1 h2
    simp at hpy

/-- The wireframe branch records no fill-path write. -/
lemma processTriangle_fw_trace {U T : Type} (lr : LineRast U T) (sh : Shader U T) (u : U)
    (ts : T) (cam : Camera) (model : Mat4) (vp : Viewport) (ff : FrontFace)
    (cull : FaceCull) (v0 v1 v2 : Vertex) (s : DrawState) :
    (processTriangle lr sh u ts cam model vp ff cull true v0 v1 v2 s).trace = s.trace := by
  by_cases hc : should_cull
      (fun i => ((mvVerts sh u ts cam model v0 v1 v2) i).position.truncated_to_vec3)
      (-Vec3.z_axis) ff cull
  · rw [processTriangle_culled lr sh u ts cam model vp ff cull true v0 v1 v2 s hc]
  · rw [processTriangle_fw_eq lr sh u ts cam model vp ff cull v0 v1 v2 s
      (by simpa using hc), drawEdges_eq]

/-- Bookkeeping invariant for C5: all recorded writes are inside the W×H
canvas, whose dimensions the fill path never changes. -/
def TraceBound (W H : Nat) (s : DrawState) : Prop :=
  (∀ f ∈ s.trace, f.x < W ∧ f.y < H) ∧ s.color.width = W ∧ s.color.height = H

lemma pixelStep_bound {U T : Type} (sh : Shader U T) (u : U) (ts : T) (near : ℚ)
    (vs : Fin 3 → Vertex) (x y : Nat) (s : DrawState) {W H : Nat} (hx : x < W)
    (hy : y < H) (hs : TraceBound W H s) :
    TraceBound W H (pixelStep sh u ts near vs x y s) := by
  rcases pixelStep_cases sh u ts near vs x y s with h | ⟨h, _, _⟩
  · rw [h]; exact hs
  · rw [h]
    refine ⟨?_, hs.2.1, hs.2.2⟩
    intro f hf
    rcases List.mem_append.mp hf with hf | hf
    · exact hs.1 f hf
    · rw [List.mem_singleton] at hf
      subst hf
      exact ⟨hx, hy⟩

lemma processTriangle_bound {U T : Type} (lr : LineRast U T) (sh : Shader U T) (u : U)
    (ts : T) (cam : Camera) (model : Mat4) (vp : Viewport) (ff : FrontFace)
    (cull : FaceCull) (v0 v1 v2 : Vertex) (s : DrawState) {W H : Nat}
    (hW : 1 ≤ W) (hH : 1 ≤ H) (hs : TraceBound W H s) :
    TraceBound W H (processTriangle lr sh u ts cam model vp ff cull false v0 v1 v2 s) := by
  unfold processTriangle
  split
  · exact hs
  · split
    · next hfw => exact absurd hfw (by simp)
    · rw [hs.2.1, hs.2.2]
      unfold fillLoop
      refine foldl_preserve _ _ ?_ hs
      intro s' x hxmem hP
      refine foldl_preserve _ _ ?_ hP
      intro s'' y hymem hP'
      have hx2 : x < W := by
        have h1 := (mem_natRangeIncl hxmem).2
        have h2 := aabbMaxX_le (pipelineVerts sh u ts cam model vp v0 v1 v2) hW
        omega
      have hy2 : y < H := by
        have h1 := (mem_natRangeIncl hymem).2
        have h2 := aabbMaxY_le (pipelineVerts sh u ts cam model vp v0 v1 v2) hH
        omega
      exact pixelStep_bound _ _ _ _ _ x y s'' hx2 hy2 hP'

/-- C5 (amended): on a canvas with at least one pixel in each dimension
(`u32` dimensions, as in the source), every fill-path write lands inside
[0, W−1] × [0, H−1]; and a triangle whose screen-space AABB lies fully
outside the canvas produces no fragments at all — the fill pass leaves the
state untouched.  (At W = 0 or H = 0 the claim fails; see the
counterexample.) -/
theorem C5_no_oob_writes :
    (∀ {U T : Type} (lr : LineRast U T) (r : Renderer U T) (model : Mat4)
        (vs : List Vertex) (ts : T),
        1 ≤ r.color_attachment.width → 1 ≤ r.color_attachment.height →
        ∀ f ∈ (draw_full lr r model vs ts).trace,
          f.x < r.color_attachment.width ∧ f.y < r.color_attachment.height)
    ∧ (∀ {U T : Type} (lr : LineRast U T) (sh : Shader U T) (u : U) (ts : T) (cam : Camera)
        (model : Mat4) (vp : Viewport) (ff : FrontFace) (cull : FaceCull)
        (v0 v1 v2 : Vertex) (s : DrawState),
        1 ≤ s.color.width → s.color.width ≤ u32Max →
        1 ≤ s.color.height → s.color.height ≤ u32Max →
        (foldMax (fun v => v.position.x) (pipelineVerts sh u ts cam model vp v0 v1 v2) < 0
          ∨ (s.color.width : ℚ) - 1
              < foldMin (fun v => v.position.x) (pipelineVerts sh u ts cam model vp v0 v1 v2)
          ∨ foldMax (fun v => v.position.y) (pipelineVerts sh u ts cam model vp v0 v1 v2) < 0
          ∨ (s.color.height : ℚ) - 1
              < foldMin (fun v => v.position.y)
                  (pipelineVerts sh u ts cam model vp v0 v1 v2)) →
        processTriangle lr sh u ts cam model vp ff cull false v0 v1 v2 s = s) := by
  constructor
  · intro U T lr r model vs ts hW hH
    rcases hfw : r.enable_framework with _ | _
    · have key : TraceBound r.color_attachment.width r.color_attachment.height
          (draw_full lr r model vs ts) := by
        unfold draw_full
        refine foldl_preserve _ _ ?_ ?_
        · intro s i _ hP
          rw [hfw]
          exact processTriangle_bound lr r.shader r.uniforms ts r.camera model r.viewport
            r.front_face r.cull _ _ _ s hW hH hP
        · exact ⟨by simp, rfl, rfl⟩
      exact key.1
    · have key : (draw_full lr r model vs ts).trace = [] := by
        unfold draw_full
        refine @foldl_preserve DrawState Nat (fun st => st.trace = []) _ _ _ ?_ rfl
        intro s i _ hP
        rw [hfw, processTriangle_fw_trace lr r.shader r.uniforms ts r.camera model
          r.viewport r.front_face r.cull _ _ _ s]
        exact hP
      intro f hf
      rw [key] at hf
      simp at hf
  · intro U T lr sh u ts cam model vp ff cull v0 v1 v2 s hW hWu hH hHu hout
    unfold processTriangle
    split
    · rfl
    · split
      · next hfw => exact absurd hfw (by simp)
      · unfold fillLoop
        rcases hout with hmx | hmnx | hmy | hmny
        · refine Eq.trans (foldl_congr_mem _ _ ?_) (foldl_id _ _)
          intro s' x hx
          have hmax0 : ratToU32
              (aabbMaxX (pipelineVerts sh u ts cam model vp v0 v1 v2) s.color.width) = 0 :=
            ratToU32_neg
              (lt_of_le_of_lt (le_trans (min_le_left _ _) (Int.floor_le _)) hmx)
          have hx0 : x = 0 := by
            have h1 := (mem_natRangeIncl hx).2
            omega
          subst hx0
          refine Eq.trans (foldl_congr_mem _ _ ?_) (foldl_id _ _)
          intro s'' y _
          exact pixelStep_outside_left sh u ts _ _ y s'' hmx
        · have hminW : s.color.width ≤ ratToU32
              (aabbMinX (pipelineVerts sh u ts cam model vp v0 v1 v2)) := by
            refine ratToU32_ge hWu ?_
            refine le_trans ?_ (le_max_left _ _)
            have hceil : ((s.color.width : ℤ) - 1)
                < ⌈foldMin (fun v => v.position.x)
                    (pipelineVerts sh u ts cam model vp v0 v1 v2)⌉ := by
              refine Int.lt_ceil.mpr ?_
              push_cast
              linarith
            have : (s.color.width : ℤ)
                ≤ ⌈foldMin (fun v => v.position.x)
                    (pipelineVerts sh u ts cam model vp v0 v1 v2)⌉ := by omega
            exact_mod_cast Int.cast_le.mpr this
          have hempty : natRangeIncl
              (ratToU32 (aabbMinX (pipelineVerts sh u ts cam model vp v0 v1 v2)))
              (ratToU32
                (aabbMaxX (pipelineVerts sh u ts cam model vp v0 v1 v2) s.color.width))
              = [] := by
            refine natRangeIncl_eq_nil ?_
            have h1 := aabbMaxX_le (pipelineVerts sh u ts cam model vp v0 v1 v2) hW
            omega
          rw [hempty]
          rfl
        · refine Eq.trans (foldl_congr_mem _ _ ?_) (foldl_id _ _)
          intro s' x _
          have hmax0 : ratToU32
              (aabbMaxY (pipelineVerts sh u ts cam model vp v0 v1 v2) s.color.height) = 0 :=
            ratToU32_neg
              (lt_of_le_of_lt (le_trans (min_le_left _ _) (Int.floor_le _)) hmy)
          refine Eq.trans (foldl_congr_mem _ _ ?_) (foldl_id _ _)
          intro s'' y hy
          have hy0 : y = 0 := by
            have h1 := (mem_natRangeIncl hy).2
            omega
          subst hy0
          exact pixelStep_outside_top sh u ts _ _ x s'' hmy
        · have hminH : s.color.height ≤ ratToU32
              (aabbMinY (pipelineVerts sh u ts cam model vp v0 v1 v2)) := by
            refine ratToU32_ge hHu ?_
            refine le_trans ?_ (le_max_left _ _)
            have hceil : ((s.color.height : ℤ) - 1)
                < ⌈foldMin (fun v => v.position.y)
                    (pipelineVerts sh u ts cam model vp v0 v1 v2)⌉ := by
              refine Int.lt_ceil.mpr ?_
              push_cast
              linarith
            have : (s.color.height : ℤ)
                ≤ ⌈foldMin (fun v => v.position.y)
                    (pipelineVerts sh u ts cam model vp v0 v1 v2)⌉ := by omega
            exact_mod_cast Int.cast_le.mpr this
          have hempty : natRangeIncl
              (ratToU32 (aabbMinY (pipelineVerts sh u ts cam model vp v0 v1 v2)))
              (ratToU32
                (aabbMaxY (pipelineVerts sh u ts cam model vp v0 v1 v2) s.color.height))
              = [] := by
            refine natRangeIncl_eq_nil ?_
            have h1 := aabbMaxY_le (pipelineVerts sh u ts cam model vp v0 v1 v2) hH
            omega
          refine Eq.trans (foldl_congr_mem _ _ ?_) (foldl_id _ _)
          intro s' x _
          rw [hempty]
          rfl

/-- A 0×2 renderer: the degenerate-width case allowed by `Renderer::new`. -/
def cexR : Renderer Unit Unit := mkRenderer 0 2

/-- A triangle that covers pixels (0, 0) and (0, 1) of the degenerate canvas
after the viewport transform (screen corners (−1, 0), (1, 0), (0, 2)). -/
def cexVerts : List Vertex := [mkV 1 3 0 1, mkV (-3) 3 0 1, mkV (-1) (-1) 0 1]

set_option maxHeartbeats 2000000 in
lemma draw5_eval :
    (draw_full idLR cexR Mat4.id cexVerts ()).trace.map (fun f => (f.x, f.y)) =
      [(0, 0), (0, 1)] := by
  norm_num [draw_full, cexVerts, cexR, mkRenderer, processTriangle, should_cull_none,
    fillLoop, pixelStep, pixelBer, reconstructedZ, invZ, Berycentric.new,
    Berycentric.is_valid, screenPts, pipelineVerts, postViewport, mvVerts, modelViewStage,
    vertexShaderStage, projStage, setTrueZ, perspectiveDivide, viewportTransform, aabbMinX,
    aabbMaxX, aabbMinY, aabbMaxY, foldMin, foldMax, ratCeil, ratFloor, ratToU32, u32Max,
    natRangeIncl, f32_max, f32_min, DepthAttachment.get, DepthAttachment.set,
    ColorAttachment.set, Camera.get_frustum, idCamera, constShader,
    Shader.call_vertex_changing, Shader.call_pixel_shading, mkV, Mat4.id, Mat4.mulVec,
    Mat4.mulMat, Matrix.cons_val_zero, Matrix.cons_val_one, Matrix.head_cons,
    Matrix.cons_val_two, Matrix.tail_cons, List.range_succ, Int.toNat_ofNat, List.range',
    Int.ceil_neg, Int.ceil_one, Int.ceil_zero, Int.floor_one, Int.floor_zero]

/-- Counterexample to C5 as stated: with a 0-wide color attachment (W = 0),
a fill draw still writes the fragments (0, 0) and (0, 1), whose x coordinate
is not in the empty range [0, W−1]. -/
theorem C5_counterexample :
    (draw_full idLR cexR Mat4.id cexVerts ()).trace.map (fun f => (f.x, f.y))
        = [(0, 0), (0, 1)]
    ∧ cexR.color_attachment.width = 0
    ∧ ¬ ((0 : ℤ) ≤ (cexR.color_attachment.width : ℤ) - 1) :=
  ⟨draw5_eval, rfl, by norm_num [cexR, mkRenderer]⟩

lemma draw6_len : (draw_full idLR r6 Mat4.id verts6 ()).trace.length = 6 := by
  have h := congrArg List.length draw6_eval
  simpa using h

/-- Witness for C5 (amended) at the concrete 3×3 draw. -/
theorem C5_witness :
    (1 ≤ r6.color_attachment.width ∧ 1 ≤ r6.color_attachment.height)
    ∧ ((draw_full idLR r6 Mat4.id verts6 ()).trace.getD 0 default).x
        < r6.color_attachment.width
    ∧ ((draw_full idLR r6 Mat4.id verts6 ()).trace.getD 0 default).y
        < r6.color_attachment.height := by
  have hmem : (draw_full idLR r6 Mat4.id verts6 ()).trace.getD 0 default
      ∈ (draw_full idLR r6 Mat4.id verts6 ()).trace := by
    rw [List.getD_eq_getElem _ _ (by rw [draw6_len]; omega)]
    exact List.getElem_mem _
  refine ⟨⟨by norm_num [r6, mkRenderer], by norm_num [r6, mkRenderer]⟩, ?_⟩
  exact C5_no_oob_writes.1 idLR r6 Mat4.id verts6 ()
    (by norm_num [r6, mkRenderer]) (by norm_num [r6, mkRenderer]) _ hmem

/-- Witness for C4: a two-vertex draw leaves a concrete renderer unchanged. -/
theorem C4_witness :
    [mkV 0 0 0 1, mkV 1 0 0 1].length < 3
    ∧ draw_triangle idLR (mkRenderer 2 2) Mat4.id [mkV 0 0 0 1, mkV 1 0 0 1] ()
        = mkRenderer 2 2 :=
  ⟨by decide,
   (C4_triangle_batching idLR (mkRenderer 2 2) Mat4.id [mkV 0 0 0 1, mkV 1 0 0 1] ()).2
     (by decide)⟩

end CR
